import Mathlib

/-!
Verification of the webhook-delivery pipeline's core against its source.

The embedding mirrors, function by function, the Python source of the
repository:

* `src/api/dynamo.py` — the Event Store Gateway used by the management API
  (`list_events`, `get_event`, `mark_event_as_purged`, `reset_event_for_retry`);
* `src/worker/dynamo.py` — the worker-side store access
  (`get_event`, `get_tenant_by_id`, `update_event_status`);
* `src/worker/signatures.py` — `generate_stripe_signature` (HMAC-SHA256);
* `src/worker/delivery.py` — `deliver_webhook`;
* `src/worker/handler.py` — the Delivery Worker `main` loop;
* `src/dlq_processor/handler.py` — the requeue processor `main` loop;
* `src/api/routes.py` — the `purge_dlq` route's reconciliation loop;
* `src/webhook_receiver/main.py` — `verify_signature`.

The DynamoDB Events table is modelled as a list of schemaless items: the two
key attributes are always present, every other attribute is optional, exactly
as items live in the store (an `UpdateItem` on an absent key creates an item
holding only the key attributes and the SET-assigned ones).  External effects
(SQS sends/deletes, the outbound HTTP POST) are made explicit: queue
operations are returned as effect lists and the HTTP world is an environment
parameter, so every function stays executable.
-/

namespace WebhookDelivery

/-- One stored item of the Events DynamoDB table.  `tenantId`/`eventId` are the
composite key (always present on an item); all other attributes are optional,
as DynamoDB items are schemaless.  `payload` stands for the tenant payload
document (the model keeps it opaque as its serialized JSON text, per the
deterministic serialization in `delivery.py`). -/
structure EventItem where
  tenantId : String
  eventId : String
  status : Option String := none
  attempts : Option Nat := none
  errorMessage : Option String := none
  lastAttemptAt : Option String := none
  targetUrl : Option String := none
  payload : Option String := none
  createdAt : Option String := none
  deriving DecidableEq, Repr

/-- The Events table: a list of items.  List order doubles as index order for
queries (DynamoDB returns index-ordered pages; the model does not re-sort). -/
abbrev EventsTable := List EventItem

/-- Key equality of an item against a composite key, as used by every
`Key={"tenantId": ..., "eventId": ...}` call in the source. -/
def keyMatch (t e : String) (it : EventItem) : Bool :=
  it.tenantId == t && it.eventId == e

/-- DynamoDB `GetItem`: the first (in a well-keyed table: the only) item with
the given key, if present (`dynamo.py::get_event` in both the api and the
worker module). -/
def getItem : EventsTable → String → String → Option EventItem
  | [], _, _ => none
  | it :: rest, t, e => if keyMatch t e it then some it else getItem rest t e

/-- The item an `UpdateItem` on an absent key starts from: only the key
attributes (every other attribute absent). -/
def freshItem (t e : String) : EventItem := { tenantId := t, eventId := e }

/-- DynamoDB `UpdateItem` without a condition: apply the update to the item
with the given key; when no such item exists, create a fresh item holding only
the key attributes and apply the update to it (DynamoDB upsert semantics). -/
def updateItem : EventsTable → String → String → (EventItem → EventItem) →
    EventsTable
  | [], t, e, f => [f (freshItem t e)]
  | it :: rest, t, e, f =>
    if keyMatch t e it then f it :: rest
    else it :: updateItem rest t e f

/-- The `status` attribute of the stored item with the given key, if any. -/
def statusOf (tbl : EventsTable) (t e : String) : Option String :=
  (getItem tbl t e).bind EventItem.status

/-- The `attempts` attribute of the stored item with the given key, if any. -/
def attemptsOf (tbl : EventsTable) (t e : String) : Option Nat :=
  (getItem tbl t e).bind EventItem.attempts

/-- The `errorMessage` attribute of the stored item with the given key. -/
def errorMessageOf (tbl : EventsTable) (t e : String) : Option String :=
  (getItem tbl t e).bind EventItem.errorMessage

/-! ## `src/api/dynamo.py` — Event Store Gateway operations -/

/-- `api/dynamo.py::list_events`.  With a status filter the source queries the
`status-index` GSI with `KeyConditionExpression #status = :status`, a
`FilterExpression tenantId = :tid`, and `Limit`; DynamoDB applies `Limit` to
the items matching the key condition *before* the filter expression.  Without
a status it queries the table by the `tenantId` partition key.  `startIdx`
stands for `ExclusiveStartKey`: the number of key-matching items already
consumed by earlier pages. -/
def list_events (tbl : EventsTable) (tenantId : String) (status : Option String)
    (limit : Nat) (startIdx : Nat) : List EventItem :=
  let lim := min limit 100
  match status with
  | some s =>
    (((tbl.filter (fun it => it.status == some s)).drop startIdx).take lim).filter
      (fun it => it.tenantId == tenantId)
  | none =>
    ((tbl.filter (fun it => it.tenantId == tenantId)).drop startIdx).take lim

/-- The attribute assignment of `mark_event_as_purged`:
`SET #status = :purged`. -/
def purgedUpdater (it : EventItem) : EventItem := { it with status := some "PURGED" }

/-- `api/dynamo.py::mark_event_as_purged`: an unconditional `UpdateItem`
setting `status = "PURGED"`.  Returns the flag and the new table; the source
returns `True` whenever the write goes through (it returns `False` only when
the store call itself raises, which the reliable-store model excludes). -/
def mark_event_as_purged (tbl : EventsTable) (t e : String) :
    Bool × EventsTable :=
  (true, updateItem tbl t e purgedUpdater)

/-- The attribute assignment of `reset_event_for_retry`:
`SET #status = :pending REMOVE errorMessage`. -/
def retryUpdater (it : EventItem) : EventItem :=
  { it with status := some "PENDING", errorMessage := none }

/-- `api/dynamo.py::reset_event_for_retry`: a conditional `UpdateItem` with
`ConditionExpression #status = :failed`, `SET #status = :pending REMOVE
errorMessage`.  The condition fails — and the source catches
`ConditionalCheckFailedException` and returns `False`, leaving the store
untouched — both when the item is absent and when its status is not FAILED. -/
def reset_event_for_retry (tbl : EventsTable) (t e : String) :
    Bool × EventsTable :=
  match getItem tbl t e with
  | some it =>
    if it.status == some "FAILED" then (true, updateItem tbl t e retryUpdater)
    else (false, tbl)
  | none => (false, tbl)

/-! ## `src/worker/dynamo.py` — worker-side store access -/

/-- Python truthiness of the `error_message` argument: `None` and the empty
string are falsy (`if error_message:` in the source). -/
def pyTruthy : Option String → Bool
  | none => false
  | some s => !(s == "")

/-- The attribute assignment of `update_event_status`:
`SET #status = :status, attempts = :attempts, lastAttemptAt = :last_attempt`,
extended with `errorMessage = :error` only when the `error_message` argument
is truthy. -/
def statusUpdater (status : String) (attempts : Nat)
    (errorMessage : Option String) (now : String) (it : EventItem) :
    EventItem :=
  let upd :=
    { it with status := some status, attempts := some attempts,
              lastAttemptAt := some now }
  if pyTruthy errorMessage then { upd with errorMessage := errorMessage }
  else upd

/-- `worker/dynamo.py::update_event_status`: an unconditional `UpdateItem`
applying `statusUpdater`.  `now` stands for `str(int(time.time()))`. -/
def update_event_status (tbl : EventsTable) (t e : String) (status : String)
    (attempts : Nat) (errorMessage : Option String) (now : String) :
    EventsTable :=
  updateItem tbl t e (statusUpdater status attempts errorMessage now)

/-! ## `src/worker/delivery.py` — Delivery Client -/

/-- What the outbound `requests.post` does, as seen by `deliver_webhook`'s
`try` block: an HTTP response with some status code, a timeout, a connection
error, or any other exception.  This is the environment's contribution; the
classification below is the source's. -/
inductive HttpOutcome where
  | response (statusCode : Nat)
  | timeout
  | connectionError (msg : String)
  | otherError (msg : String)
  deriving DecidableEq, Repr

/-- `worker/delivery.py::deliver_webhook`, given what the single HTTP POST
did.  Returns `(success, status_code, error_message)` exactly as the source:
success iff the status code is in `[200, 300)`, and an *empty* error string
for any HTTP response (2xx or not); the three exception shapes return code 0
and a non-empty message. -/
def deliver_webhook : HttpOutcome → Bool × Nat × String
  | .response code => (decide (200 ≤ code ∧ code < 300), code, "")
  | .timeout => (false, 0, "Request timeout")
  | .connectionError s => (false, 0, "Connection error: " ++ s)
  | .otherError s => (false, 0, "Unexpected error: " ++ s)

/-! ## `src/worker/handler.py` — the Delivery Worker -/

/-- `MAX_RETRY_ATTEMPTS` in `worker/handler.py`. -/
def MAX_RETRY_ATTEMPTS : Nat := 5

/-- A main-queue / dead-letter-queue message body: `{"tenantId": ...,
"eventId": ...}` — a reference only, never the payload. -/
structure QueueMessage where
  tenantId : String
  eventId : String
  deriving DecidableEq, Repr

/-- The worker's environment for one invocation: whether `EVENTS_DLQ_URL` is
configured, whether an `sqs.send_message` to the DLQ succeeds, the
TenantWebhookConfig rows (`tenantId → webhookSecret`, the attribute the worker
reads), and the outcome of POSTing a given payload to a given target URL.
`now` stands for the wall clock read by `update_event_status`. -/
structure WorkerEnv where
  dlqConfigured : Bool
  dlqSendOk : Bool
  tenants : List (String × String)
  http : String → String → HttpOutcome
  now : String

/-- What processing one SQS record did: the table afterwards, the messages
sent to the dead-letter channel, the delivery-client invocations (identified
by the event they were for), and whether the handler raised (an unhandled
exception propagates out of `main`, leaving the message unacknowledged and
aborting the rest of the batch). -/
structure StepResult where
  table : EventsTable
  dlqSends : List QueueMessage
  deliveryCalls : List QueueMessage
  raised : Bool
  deriving Repr

/-- The body of the `for record in event["Records"]` loop of
`worker/handler.py::main`, for one message:

1. `get_event`; absent → log and `continue` (handled, no store write);
2. read `targetUrl`/`payload` (a missing attribute is a `KeyError`, which
   propagates: `raised`);
3. the attempt-ceiling short-circuit: if `attempts >= MAX_RETRY_ATTEMPTS` and
   the DLQ is configured, send a freshly constructed `{tenantId, eventId}`
   message to the DLQ and `continue`; if that send raises, fall through to
   delivery;
4. `get_tenant_by_id`; absent → log and `continue`;
5. `deliver_webhook`, then `new_attempts = attempts + 1`;
6. success → `update_event_status DELIVERED` and `continue`;
7. failure → `update_event_status FAILED` with the error message, then if
   `new_attempts >= MAX_RETRY_ATTEMPTS` and the DLQ is configured, send to the
   DLQ and `continue` (falling through to the raise if that send fails);
   otherwise raise to trigger SQS redelivery. -/
def process_record (env : WorkerEnv) (tbl : EventsTable) (m : QueueMessage) :
    StepResult :=
  match getItem tbl m.tenantId m.eventId with
  | none => ⟨tbl, [], [], false⟩
  | some ev =>
    match ev.targetUrl, ev.payload with
    | some targetUrl, some payload =>
      if MAX_RETRY_ATTEMPTS ≤ ev.attempts.getD 0 && env.dlqConfigured
          && env.dlqSendOk then
        ⟨tbl, [⟨m.tenantId, m.eventId⟩], [], false⟩
      else
        match env.tenants.lookup m.tenantId with
        | none => ⟨tbl, [], [], false⟩
        | some _webhookSecret =>
          if (deliver_webhook (env.http targetUrl payload)).1 then
            ⟨update_event_status tbl m.tenantId m.eventId "DELIVERED"
                (ev.attempts.getD 0 + 1) none env.now,
              [], [m], false⟩
          else
            if MAX_RETRY_ATTEMPTS ≤ ev.attempts.getD 0 + 1
                && env.dlqConfigured && env.dlqSendOk then
              ⟨update_event_status tbl m.tenantId m.eventId "FAILED"
                  (ev.attempts.getD 0 + 1)
                  (some (deliver_webhook (env.http targetUrl payload)).2.2)
                  env.now,
                [⟨m.tenantId, m.eventId⟩], [m], false⟩
            else
              ⟨update_event_status tbl m.tenantId m.eventId "FAILED"
                  (ev.attempts.getD 0 + 1)
                  (some (deliver_webhook (env.http targetUrl payload)).2.2)
                  env.now,
                [], [m], true⟩
    | _, _ => ⟨tbl, [], [], true⟩

/-- The outcome of one worker invocation over a batch. -/
structure BatchResult where
  table : EventsTable
  dlqSends : List QueueMessage
  deliveryCalls : List QueueMessage
  raised : Bool
  deriving Repr

/-- `worker/handler.py::main`: process the batch's records in order; an
unhandled exception from one record propagates out of the handler, so the
remaining records are not processed in this invocation. -/
def run_batch (env : WorkerEnv) (tbl : EventsTable) :
    List QueueMessage → BatchResult
  | [] => ⟨tbl, [], [], false⟩
  | m :: rest =>
    let r := process_record env tbl m
    if r.raised then ⟨r.table, r.dlqSends, r.deliveryCalls, true⟩
    else
      let b := run_batch env r.table rest
      ⟨b.table, r.dlqSends ++ b.dlqSends, r.deliveryCalls ++ b.deliveryCalls,
        b.raised⟩

/-! ## Dead-letter-channel messages

Both DLQ consumers (`dlq_processor/handler.py` and the `purge_dlq` route)
start by `json.loads(message['Body'])` inside a `try`.  A body is therefore
either text that fails to parse (the exception is caught and the message is
counted as failed) or a JSON object on which `'tenantId' in body` /
`body.get("tenantId")` are evaluated.  Non-object JSON values behave like an
object without the fields for both consumers and are folded into `jsonObj none
none`. -/
inductive MessageBody where
  | invalidJson (raw : String)
  | jsonObj (tenantId : Option String) (eventId : Option String)
  deriving DecidableEq, Repr

/-- A received SQS message: its body and its receipt handle (needed to delete
it). -/
structure DlqMessage where
  body : MessageBody
  receiptHandle : String
  deriving DecidableEq, Repr

/-! ## `src/dlq_processor/handler.py` — the requeue processor -/

/-- The requeue processor's running state: the two tallies, the number of
`sqs.receive_message` calls made so far, and the effect lists — bodies
re-sent to the main channel and receipt handles deleted from the DLQ. -/
structure RequeueState where
  requeued : Nat
  failed : Nat
  recvCalls : Nat
  mainSends : List MessageBody
  deletes : List String
  deriving DecidableEq, Repr

/-- The state the processor starts from. -/
def requeueInit : RequeueState := ⟨0, 0, 0, [], []⟩

/-- The `for message in messages` body of `dlq_processor/handler.py::main`:
a body that fails `json.loads` raises inside the `try` and is counted as
failed; a body missing `tenantId` or `eventId` is counted as failed and left
in place (not deleted); a valid body is re-sent to the main queue, deleted
from the DLQ, and counted as requeued. -/
def process_dlq_message (st : RequeueState) (msg : DlqMessage) : RequeueState :=
  match msg.body with
  | .invalidJson _ => { st with failed := st.failed + 1 }
  | .jsonObj t e =>
    if t.isSome && e.isSome then
      { st with requeued := st.requeued + 1,
                mainSends := st.mainSends ++ [msg.body],
                deletes := st.deletes ++ [msg.receiptHandle] }
    else { st with failed := st.failed + 1 }

/-- The `while requeued_count < max_messages` loop of
`dlq_processor/handler.py::main`.  `recv k` is what the k-th
`sqs.receive_message` call against the dead-letter channel yields (the
channel is an external service and may keep being refilled); the source asks
for at most `min(batch_size, max_messages - requeued_count)` messages, which
the model enforces with `take`.  The loop exits only when the tally reaches
`max_messages` or a receive returns no messages — the source has no iteration
counter.  `fuel` is the model's observation bound: `none` means the loop has
not terminated within `fuel` iterations. -/
def requeue_loop (recv : Nat → List DlqMessage) (batchSize maxMessages : Nat) :
    Nat → RequeueState → Option RequeueState
  | 0, _ => none
  | fuel + 1, st =>
    if maxMessages ≤ st.requeued then some st
    else if ((recv st.recvCalls).take
        (min batchSize (maxMessages - st.requeued))).isEmpty then some st
    else
      requeue_loop recv batchSize maxMessages fuel
        (((recv st.recvCalls).take
            (min batchSize (maxMessages - st.requeued))).foldl
          process_dlq_message { st with recvCalls := st.recvCalls + 1 })

/-- Termination of the requeue processor on a given channel behaviour and
parameters: some finite number of loop iterations reaches one of the source's
two exit conditions. -/
def RequeueTerminates (recv : Nat → List DlqMessage)
    (batchSize maxMessages : Nat) : Prop :=
  ∃ fuel, (requeue_loop recv batchSize maxMessages fuel requeueInit).isSome

/-! ## `src/api/routes.py::purge_dlq` — the purge reconciliation loop -/

/-- The purge loop's running state: the two tallies and the event table as
reconciliation writes land in it. -/
structure PurgeState where
  marked : Nat
  failed : Nat
  table : EventsTable
  deriving DecidableEq, Repr

/-- The `for message in messages` body of the purge loop: a body that fails
`json.loads` is counted as failed; `body.get("tenantId")` / `.get("eventId")`
must both be truthy (present and non-empty — Python `if tenant_id and
event_id:`), else failed; otherwise `mark_event_as_purged` is called and its
boolean tallied. -/
def purge_process_message (st : PurgeState) (msg : DlqMessage) : PurgeState :=
  match msg.body with
  | .invalidJson _ => { st with failed := st.failed + 1 }
  | .jsonObj t? e? =>
    match t?, e? with
    | some t, some e =>
      if t == "" || e == "" then { st with failed := st.failed + 1 }
      else
        let r := mark_event_as_purged st.table t e
        if r.1 then { st with marked := st.marked + 1, table := r.2 }
        else { st with failed := st.failed + 1, table := r.2 }
    | _, _ => { st with failed := st.failed + 1 }

/-- The `while iteration < max_iterations` read-loop of `purge_dlq`
(`max_iterations = 100`).  Each iteration receives up to 10 messages off the
channel *without deleting them* — received messages are in flight for the
rest of the operation, so the model takes them off the visible list — marks
their events, and stops when a receive comes back empty or returns fewer than
10 messages.  Returns the final state and the messages never received. -/
def purge_read_loop : Nat → List DlqMessage → PurgeState →
    PurgeState × List DlqMessage
  | 0, q, st => (st, q)
  | fuel + 1, q, st =>
    let msgs := q.take 10
    if msgs.isEmpty then (st, q)
    else
      let st2 := msgs.foldl purge_process_message st
      if msgs.length < 10 then (st2, q.drop 10)
      else purge_read_loop fuel (q.drop 10) st2

/-- `api/routes.py::purge_dlq`: first the best-effort reconciliation read-loop
(bounded by 100 iterations), then — and only then — the irreversible
`sqs.purge_queue`, which deletes every message and leaves the channel empty.
Returns (final table, events marked PURGED, failures, channel contents after
the purge). -/
def purge_dlq (tbl : EventsTable) (dlq : List DlqMessage) :
    EventsTable × Nat × Nat × List DlqMessage :=
  let r := purge_read_loop 100 dlq ⟨0, 0, tbl⟩
  (r.1.table, r.1.marked, r.1.failed, [])

/-! ## SHA-256 and HMAC

`worker/signatures.py` signs with `hmac.new(secret, signed_payload,
hashlib.sha256).hexdigest()` and the receiver recomputes the same digest; the
model implements SHA-256 (FIPS 180-4) and HMAC (RFC 2104, as Python's `hmac`
with a 64-byte block) executably on byte lists, words being naturals reduced
mod 2^32. -/

/-- Truncation to a 32-bit word. -/
def w32 (n : Nat) : Nat := n % 4294967296

/-- Right rotation of a 32-bit word. -/
def rotr32 (k x : Nat) : Nat := w32 ((x >>> k) ||| (x <<< (32 - k)))

/-- Bitwise complement of a 32-bit word. -/
def not32 (x : Nat) : Nat := x ^^^ 4294967295

/-- SHA-256 Σ₀. -/
def bigSigma0 (x : Nat) : Nat := rotr32 2 x ^^^ rotr32 13 x ^^^ rotr32 22 x

/-- SHA-256 Σ₁. -/
def bigSigma1 (x : Nat) : Nat := rotr32 6 x ^^^ rotr32 11 x ^^^ rotr32 25 x

/-- SHA-256 σ₀. -/
def smallSigma0 (x : Nat) : Nat := rotr32 7 x ^^^ rotr32 18 x ^^^ (x >>> 3)

/-- SHA-256 σ₁. -/
def smallSigma1 (x : Nat) : Nat := rotr32 17 x ^^^ rotr32 19 x ^^^ (x >>> 10)

/-- SHA-256 Ch. -/
def chFn (x y z : Nat) : Nat := (x &&& y) ^^^ (not32 x &&& z)

/-- SHA-256 Maj. -/
def majFn (x y z : Nat) : Nat := (x &&& y) ^^^ (x &&& z) ^^^ (y &&& z)

/-- The 64 SHA-256 round constants (FIPS 180-4), written in decimal. -/
def sha256K : List Nat :=
  [1116352408, 1899447441, 3049323471, 3921009573,
   961987163, 1508970993, 2453635748, 2870763221,
   3624381080, 310598401, 607225278, 1426881987,
   1925078388, 2162078206, 2614888103, 3248222580,
   3835390401, 4022224774, 264347078, 604807628,
   770255983, 1249150122, 1555081692, 1996064986,
   2554220882, 2821834349, 2952996808, 3210313671,
   3336571891, 3584528711, 113926993, 338241895,
   666307205, 773529912, 1294757372, 1396182291,
   1695183700, 1986661051, 2177026350, 2456956037,
   2730485921, 2820302411, 3259730800, 3345764771,
   3516065817, 3600352804, 4094571909, 275423344,
   430227734, 506948616, 659060556, 883997877,
   958139571, 1322822218, 1537002063, 1747873779,
   1955562222, 2024104815, 2227730452, 2361852424,
   2428436474, 2756734187, 3204031479, 3329325298]

/-- The SHA-256 initial hash value (FIPS 180-4), as 8 words in decimal. -/
def sha256H0 : List Nat :=
  [1779033703, 3144134277, 1013904242, 2773480762,
   1359893119, 2600822924, 528734635, 1541459225]

/-- Group bytes into big-endian 32-bit words (`fuel` bounds the recursion;
incomplete trailing groups are dropped, which never happens on padded input). -/
def wordsOfBytes : Nat → List Nat → List Nat
  | 0, _ => []
  | fuel + 1, b0 :: b1 :: b2 :: b3 :: rest =>
    (b0 * 16777216 + b1 * 65536 + b2 * 256 + b3) :: wordsOfBytes fuel rest
  | _ + 1, _ => []

/-- Extend a 16-word block schedule by `fuel` further words. -/
def scheduleExt : Nat → List Nat → List Nat
  | 0, ws => ws
  | fuel + 1, ws =>
    let n := ws.length
    let w := w32 (smallSigma1 (ws.getD (n - 2) 0) + ws.getD (n - 7) 0 +
      smallSigma0 (ws.getD (n - 15) 0) + ws.getD (n - 16) 0)
    scheduleExt fuel (ws ++ [w])

/-- One SHA-256 round on the 8-word working state, fed one (Kt, Wt) pair. -/
def sha256Round (st : List Nat) (kw : Nat × Nat) : List Nat :=
  match st with
  | [a, b, c, d, e, f, g, h] =>
    let t1 := w32 (h + bigSigma1 e + chFn e f g + kw.1 + kw.2)
    let t2 := w32 (bigSigma0 a + majFn a b c)
    [w32 (t1 + t2), a, b, c, w32 (d + t1), e, f, g]
  | other => other

/-- Compress one 64-byte block into the running 8-word hash value. -/
def sha256Compress (hs : List Nat) (block : List Nat) : List Nat :=
  let ws := scheduleExt 48 (wordsOfBytes 16 block)
  let st := (sha256K.zip ws).foldl sha256Round hs
  (hs.zip st).map (fun p => w32 (p.1 + p.2))

/-- Big-endian 8-byte encoding of a 64-bit length. -/
def be64 (n : Nat) : List Nat :=
  [(n >>> 56) &&& 255, (n >>> 48) &&& 255, (n >>> 40) &&& 255,
   (n >>> 32) &&& 255, (n >>> 24) &&& 255, (n >>> 16) &&& 255,
   (n >>> 8) &&& 255, n &&& 255]

/-- SHA-256 padding: a 0x80 byte, zeros to 56 mod 64, then the bit length. -/
def sha256Pad (msg : List Nat) : List Nat :=
  let len := msg.length
  msg ++ 128 :: List.replicate ((64 - ((len + 9) % 64)) % 64) 0 ++ be64 (8 * len)

/-- Split a padded message into 64-byte blocks (`fuel` bounds the recursion). -/
def chunks64 : Nat → List Nat → List (List Nat)
  | 0, _ => []
  | fuel + 1, bs =>
    if bs.isEmpty then [] else bs.take 64 :: chunks64 fuel (bs.drop 64)

/-- SHA-256 digest of a byte list, as 32 bytes. -/
def sha256Bytes (msg : List Nat) : List Nat :=
  let hs := (chunks64 (msg.length + 9) (sha256Pad msg)).foldl sha256Compress
    sha256H0
  hs.foldr (fun w acc =>
    ((w >>> 24) &&& 255) :: ((w >>> 16) &&& 255) :: ((w >>> 8) &&& 255) ::
      (w &&& 255) :: acc) []

/-- HMAC-SHA256 (Python `hmac` with `hashlib.sha256`: 64-byte block, keys
longer than a block are first hashed, then zero-padded). -/
def hmacSha256 (key msg : List Nat) : List Nat :=
  let key1 := if 64 < key.length then sha256Bytes key else key
  let kpad := key1 ++ List.replicate (64 - key1.length) 0
  let inner := sha256Bytes (kpad.map (fun b => b ^^^ 54) ++ msg)
  sha256Bytes (kpad.map (fun b => b ^^^ 92) ++ inner)

/-! ## Text encodings -/

/-- UTF-8 encoding of one character (Python `str.encode('utf-8')`). -/
def utf8Char (c : Char) : List Nat :=
  let n := c.toNat
  if n < 128 then [n]
  else if n < 2048 then
    [192 ||| (n >>> 6), 128 ||| (n &&& 63)]
  else if n < 65536 then
    [224 ||| (n >>> 12), 128 ||| ((n >>> 6) &&& 63), 128 ||| (n &&& 63)]
  else
    [240 ||| (n >>> 18), 128 ||| ((n >>> 12) &&& 63),
     128 ||| ((n >>> 6) &&& 63), 128 ||| (n &&& 63)]

/-- UTF-8 encoding of a character sequence. -/
def utf8 (cs : List Char) : List Nat :=
  cs.foldr (fun c acc => utf8Char c ++ acc) []

/-- A hex digit character (lowercase, as `hexdigest()` emits). -/
def hexDigitChar (d : Nat) : Char :=
  match d with
  | 0 => '0' | 1 => '1' | 2 => '2' | 3 => '3' | 4 => '4'
  | 5 => '5' | 6 => '6' | 7 => '7' | 8 => '8' | 9 => '9'
  | 10 => 'a' | 11 => 'b' | 12 => 'c' | 13 => 'd' | 14 => 'e'
  | _ => 'f'

/-- Two lowercase hex characters of one byte. -/
def hexByte (b : Nat) : List Char := [hexDigitChar (b / 16), hexDigitChar (b % 16)]

/-- Lowercase hex rendering of a byte list (`hexdigest()`). -/
def hexOfBytes (bs : List Nat) : List Char :=
  bs.foldr (fun b acc => hexByte b ++ acc) []

/-- A decimal digit character. -/
def decDigitChar (d : Nat) : Char :=
  match d with
  | 0 => '0' | 1 => '1' | 2 => '2' | 3 => '3' | 4 => '4'
  | 5 => '5' | 6 => '6' | 7 => '7' | 8 => '8' | _ => '9'

/-- The decimal digits of a natural, least significant first (`fuel` bounds
the recursion; `n + 1` fuel always suffices). -/
def decRevDigits : Nat → Nat → List Nat
  | 0, _ => []
  | fuel + 1, n => if n < 10 then [n] else n % 10 :: decRevDigits fuel (n / 10)

/-- Python `str(int)`: the decimal rendering of a natural number. -/
def decimalChars (n : Nat) : List Char :=
  ((decRevDigits (n + 1) n).reverse).map decDigitChar

/-! ## `src/worker/signatures.py` and
`src/webhook_receiver/main.py::verify_signature` -/

/-- The hex HMAC-SHA256 of a message under a secret, both given as text (the
source UTF-8-encodes both before hashing). -/
def hmacHexChars (secret message : List Char) : List Char :=
  hexOfBytes (hmacSha256 (utf8 secret) (utf8 message))

/-- The hex HMAC a header for this payload/secret/timestamp carries in its
`v1` component: `hex_hmac_sha256(secret, timestamp + "." + payload)`. -/
def sigOf (payload secret : List Char) (timestamp : Nat) : List Char :=
  hmacHexChars secret (decimalChars timestamp ++ '.' :: payload)

/-- `signatures.py::generate_stripe_signature` on character lists: the header
`t={timestamp},v1={hex_hmac_sha256(secret, timestamp + "." + payload)}`.  The
timestamp is `int(time.time())`, passed here as the `timestamp` argument. -/
def signatureHeaderChars (payload secret : List Char) (timestamp : Nat) :
    List Char :=
  't' :: '=' :: (decimalChars timestamp ++ ',' :: 'v' :: '1' :: '=' ::
    sigOf payload secret timestamp)

/-- `signatures.py::generate_stripe_signature`. -/
def generate_stripe_signature (payload secret : String) (timestamp : Nat) :
    String :=
  String.mk (signatureHeaderChars payload.data secret.data timestamp)

/-- Python `str.split(sep)` for a one-character separator: split on every
occurrence, keeping empty pieces. -/
def splitOnChar (sep : Char) : List Char → List (List Char)
  | [] => [[]]
  | c :: rest =>
    let r := splitOnChar sep rest
    if c == sep then [] :: r
    else
      match r with
      | [] => [[c]]
      | g :: gs => (c :: g) :: gs

/-- `item.split("=")` as consumed by the `dict(...)` constructor in
`verify_signature`: anything but exactly two pieces makes the constructor
raise (caught, verification fails), hence `none`. -/
def splitPairChar (item : List Char) : Option (List Char × List Char) :=
  match splitOnChar '=' item with
  | [k, v] => some (k, v)
  | _ => none

/-- The `dict(...)` constructor's pass over the split items: stops at the
first item that is not a `k=v` pair (the `ValueError` the source catches). -/
def mapPairs : List (List Char) → Option (List (List Char × List Char))
  | [] => some []
  | item :: rest =>
    match splitPairChar item, mapPairs rest with
    | some p, some ps => some (p :: ps)
    | _, _ => none

/-- `dict(item.split("=") for item in signature_header.split(","))`:
`none` when any item is not a `k=v` pair. -/
def parseSigHeader (h : List Char) :
    Option (List (List Char × List Char)) :=
  mapPairs (splitOnChar ',' h)

/-- Python `dict` lookup over the pair list: the last pair with the key wins. -/
def dictGet (l : List (List Char × List Char)) (k : List Char) :
    Option (List Char) :=
  (l.reverse.find? (fun p => p.1 == k)).map (fun p => p.2)

/-- `webhook_receiver/main.py::verify_signature` on character lists: parse the
header; require truthy `t` and `v1` components (Python `if not timestamp or
not signature`); recompute the HMAC over `{timestamp}.{payload}` using the
*embedded* timestamp; compare digests (`hmac.compare_digest`: equality). -/
def verifyChars (payload header secret : List Char) : Bool :=
  match parseSigHeader header with
  | none => false
  | some parts =>
    match dictGet parts ['t'], dictGet parts ['v', '1'] with
    | some ts, some sg =>
      if ts.isEmpty || sg.isEmpty then false
      else hmacHexChars secret (ts ++ '.' :: payload) == sg
    | _, _ => false

/-- `webhook_receiver/main.py::verify_signature`. -/
def verify_signature (payload signatureHeader webhookSecret : String) : Bool :=
  verifyChars payload.data signatureHeader.data webhookSecret.data

/-! ## Operation traces over one event's store record

Everything that ever mutates an Event in the source: a worker processing a
dequeued message (`worker/handler.py`), a manual retry reset
(`api/dynamo.py::reset_event_for_retry`), and a purge reconciliation write
(`api/dynamo.py::mark_event_as_purged`).  `createEvent` only inserts fresh
ids and the TTL field is inert, so a trace of these three operations covers
every write to an existing record's `attempts`. -/
inductive StoreOp where
  | workerMsg (env : WorkerEnv) (m : QueueMessage)
  | retryReset (t e : String)
  | purgeMark (t e : String)

/-- Apply one store operation to the table. -/
def applyOp (tbl : EventsTable) : StoreOp → EventsTable
  | .workerMsg env m => (process_record env tbl m).table
  | .retryReset t e => (reset_event_for_retry tbl t e).2
  | .purgeMark t e => (mark_event_as_purged tbl t e).2

/-- Apply a sequence of store operations. -/
def applyOps (tbl : EventsTable) : List StoreOp → EventsTable
  | [] => tbl
  | op :: ops => applyOps (applyOp tbl op) ops

/-- The `attempts` counter as every reader of the source reads it:
`event_item.get("attempts", 0)`. -/
def attemptsRead (tbl : EventsTable) (t e : String) : Nat :=
  (attemptsOf tbl t e).getD 0

/-- How many delivery attempts one operation performs on the event `(t, e)`:
the Delivery Client invocations recorded by `process_record` that are for that
event (the other two operations never attempt delivery). -/
def opDeliveryCount (tbl : EventsTable) (t e : String) : StoreOp → Nat
  | .workerMsg env m =>
    ((process_record env tbl m).deliveryCalls.filter
      (fun c => c.tenantId == t && c.eventId == e)).length
  | .retryReset _ _ => 0
  | .purgeMark _ _ => 0

/-- Total delivery attempts on `(t, e)` along a trace. -/
def traceDeliveryCount (tbl : EventsTable) (t e : String) :
    List StoreOp → Nat
  | [] => 0
  | op :: ops =>
    opDeliveryCount tbl t e op + traceDeliveryCount (applyOp tbl op) t e ops

/-- A DLQ body the requeue processor accepts: valid JSON with both fields
present (`'tenantId' in body and 'eventId' in body`). -/
def requeueWellFormed : MessageBody → Bool
  | .invalidJson _ => false
  | .jsonObj t e => t.isSome && e.isSome

/-- A continuously-refilled dead-letter channel that only ever yields one
invalid message per receive: the adversarial scenario named by the spec's
termination sentence. -/
def invalidOnlyChannel : Nat → List DlqMessage :=
  fun _ => [⟨.jsonObj none none, "rh-invalid"⟩]

/-! ## Concrete fixtures for counterexamples and witnesses -/

/-- A worker environment in which every HTTP POST comes back 500 (a retryable
non-2xx failure), the DLQ is configured and reachable, and tenant `T` exists. -/
def c2Env : WorkerEnv :=
  ⟨true, true, [("T", "sec")], fun _ _ => .response 500, "111"⟩

/-- Two pending events of tenant `T`, each with a target and a payload. -/
def c2Table : EventsTable :=
  [{ tenantId := "T", eventId := "e1", status := some "PENDING",
     attempts := some 0, targetUrl := some "u1", payload := some "p1",
     createdAt := some "10" },
   { tenantId := "T", eventId := "e2", status := some "PENDING",
     attempts := some 0, targetUrl := some "u2", payload := some "p2",
     createdAt := some "11" }]

/-- One batch holding both messages. -/
def c2Batch : List QueueMessage := [⟨"T", "e1"⟩, ⟨"T", "e2"⟩]

/-- A worker environment in which every HTTP POST succeeds with 200. -/
def c9Env : WorkerEnv :=
  ⟨true, true, [("T", "sec")], fun _ _ => .response 200, "222"⟩

/-- A FAILED event still carrying the error message of an earlier attempt. -/
def c9Table : EventsTable :=
  [{ tenantId := "T", eventId := "e1", status := some "FAILED",
     attempts := some 1, errorMessage := some "Connection error: boom",
     lastAttemptAt := some "100", targetUrl := some "u1",
     payload := some "p1", createdAt := some "10" }]

/-! ## Store lemmas -/

theorem keyMatch_freshItem (t e : String) : keyMatch t e (freshItem t e) = true := by
  simp [keyMatch, freshItem]

theorem keyMatch_apply (t e : String) (f : EventItem → EventItem)
    (hf : ∀ it, (f it).tenantId = it.tenantId ∧ (f it).eventId = it.eventId)
    (it : EventItem) : keyMatch t e (f it) = keyMatch t e it := by
  simp only [keyMatch, (hf it).1, (hf it).2]

theorem getItem_updateItem_self (tbl : EventsTable) (t e : String)
    (f : EventItem → EventItem)
    (hf : ∀ it, (f it).tenantId = it.tenantId ∧ (f it).eventId = it.eventId) :
    getItem (updateItem tbl t e f) t e =
      some (f ((getItem tbl t e).getD (freshItem t e))) := by
  induction tbl with
  | nil =>
    have hm : keyMatch t e (f (freshItem t e)) = true := by
      rw [keyMatch_apply t e f hf]; exact keyMatch_freshItem t e
    simp [getItem, updateItem, hm]
  | cons it rest ih =>
    cases h : keyMatch t e it with
    | true =>
      have hm : keyMatch t e (f it) = true := by
        rw [keyMatch_apply t e f hf]; exact h
      simp [getItem, updateItem, h, hm]
    | false =>
      simp only [updateItem, h, Bool.false_eq_true, if_false, getItem]
      exact ih

theorem getItem_updateItem_ne (tbl : EventsTable) (t e t' e' : String)
    (f : EventItem → EventItem)
    (hf : ∀ it, (f it).tenantId = it.tenantId ∧ (f it).eventId = it.eventId)
    (hne : ¬(t' = t ∧ e' = e)) :
    getItem (updateItem tbl t e f) t' e' = getItem tbl t' e' := by
  induction tbl with
  | nil =>
    have hm : keyMatch t' e' (f (freshItem t e)) = false := by
      rw [keyMatch_apply t' e' f hf]
      simp only [keyMatch, freshItem, Bool.and_eq_false_iff, beq_eq_false_iff_ne]
      rcases not_and_or.mp hne with h | h
      · exact Or.inl (fun hc => h hc.symm)
      · exact Or.inr (fun hc => h hc.symm)
    simp [getItem, updateItem, hm]
  | cons it rest ih =>
    cases h : keyMatch t e it with
    | true =>
      have hm : keyMatch t' e' (f it) = keyMatch t' e' it :=
        keyMatch_apply t' e' f hf it
      have hit : keyMatch t' e' it = false := by
        simp only [keyMatch, Bool.and_eq_true, beq_iff_eq] at h
        simp only [keyMatch, h.1, h.2, Bool.and_eq_false_iff,
          beq_eq_false_iff_ne]
        rcases not_and_or.mp hne with hx | hx
        · exact Or.inl (fun hc => hx hc.symm)
        · exact Or.inr (fun hc => hx hc.symm)
      simp only [updateItem, h, if_true, getItem, hm, hit, Bool.false_eq_true,
        if_false]
    | false =>
      simp only [updateItem, h, Bool.false_eq_true, if_false, getItem]
      cases hcase : keyMatch t' e' it
      · simpa using ih
      · rfl

theorem updateItem_of_getItem_none (tbl : EventsTable) (t e : String)
    (f : EventItem → EventItem) (h : getItem tbl t e = none) :
    updateItem tbl t e f = tbl ++ [f (freshItem t e)] := by
  induction tbl with
  | nil => simp [updateItem]
  | cons it rest ih =>
    cases hcase : keyMatch t e it with
    | true => simp [getItem, hcase] at h
    | false =>
      simp only [getItem, hcase, Bool.false_eq_true, if_false] at h
      simp only [updateItem, hcase, Bool.false_eq_true, if_false,
        List.cons_append]
      rw [ih h]

theorem getD_fresh_bind {α : Type} (tbl : EventsTable) (t e : String)
    (g : EventItem → Option α) (hg : g (freshItem t e) = none) :
    g ((getItem tbl t e).getD (freshItem t e)) = (getItem tbl t e).bind g := by
  cases h : getItem tbl t e <;> simp [hg]

theorem purgedUpdater_keys :
    ∀ it, (purgedUpdater it).tenantId = it.tenantId ∧
      (purgedUpdater it).eventId = it.eventId :=
  fun _ => ⟨rfl, rfl⟩

theorem retryUpdater_keys :
    ∀ it, (retryUpdater it).tenantId = it.tenantId ∧
      (retryUpdater it).eventId = it.eventId :=
  fun _ => ⟨rfl, rfl⟩

theorem statusUpdater_keys (s : String) (a : Nat) (err : Option String)
    (now : String) :
    ∀ it, (statusUpdater s a err now it).tenantId = it.tenantId ∧
      (statusUpdater s a err now it).eventId = it.eventId := by
  intro it
  unfold statusUpdater
  split <;> exact ⟨rfl, rfl⟩

/-! ### `mark_event_as_purged` lemmas -/

theorem mark_event_as_purged_fst (tbl : EventsTable) (t e : String) :
    (mark_event_as_purged tbl t e).1 = true := rfl

theorem statusOf_mark (tbl : EventsTable) (t e t' e' : String) :
    statusOf (mark_event_as_purged tbl t e).2 t' e' =
      if t' = t ∧ e' = e then some "PURGED" else statusOf tbl t' e' := by
  by_cases h : t' = t ∧ e' = e
  · rw [if_pos h]
    rcases h with ⟨rfl, rfl⟩
    unfold statusOf mark_event_as_purged
    rw [getItem_updateItem_self _ _ _ _ purgedUpdater_keys]
    rfl
  · rw [if_neg h]
    unfold statusOf mark_event_as_purged
    rw [getItem_updateItem_ne _ _ _ _ _ _ purgedUpdater_keys h]

theorem attemptsOf_mark (tbl : EventsTable) (t e t' e' : String) :
    attemptsOf (mark_event_as_purged tbl t e).2 t' e' = attemptsOf tbl t' e' := by
  by_cases h : t' = t ∧ e' = e
  · rcases h with ⟨rfl, rfl⟩
    unfold attemptsOf mark_event_as_purged
    rw [getItem_updateItem_self _ _ _ _ purgedUpdater_keys]
    show (purgedUpdater _).attempts = _
    rw [show ∀ x, (purgedUpdater x).attempts = x.attempts from fun _ => rfl]
    exact getD_fresh_bind tbl t' e' EventItem.attempts rfl
  · unfold attemptsOf mark_event_as_purged
    rw [getItem_updateItem_ne _ _ _ _ _ _ purgedUpdater_keys h]

/-! ### `statusUpdater` / `update_event_status` lemmas -/

theorem statusUpdater_status (s : String) (a : Nat) (err : Option String)
    (now : String) (it : EventItem) :
    (statusUpdater s a err now it).status = some s := by
  unfold statusUpdater; split <;> rfl

theorem statusUpdater_attempts (s : String) (a : Nat) (err : Option String)
    (now : String) (it : EventItem) :
    (statusUpdater s a err now it).attempts = some a := by
  unfold statusUpdater; split <;> rfl

theorem statusUpdater_errorMessage_falsy (s : String) (a : Nat)
    (err : Option String) (now : String) (it : EventItem)
    (hp : pyTruthy err = false) :
    (statusUpdater s a err now it).errorMessage = it.errorMessage := by
  unfold statusUpdater
  rw [hp]
  rfl

theorem statusOf_update_event_status_self (tbl : EventsTable) (t e s : String)
    (a : Nat) (err : Option String) (now : String) :
    statusOf (update_event_status tbl t e s a err now) t e = some s := by
  unfold statusOf update_event_status
  rw [getItem_updateItem_self _ _ _ _ (statusUpdater_keys s a err now)]
  simp [statusUpdater_status]

theorem attemptsOf_update_event_status_self (tbl : EventsTable) (t e s : String)
    (a : Nat) (err : Option String) (now : String) :
    attemptsOf (update_event_status tbl t e s a err now) t e = some a := by
  unfold attemptsOf update_event_status
  rw [getItem_updateItem_self _ _ _ _ (statusUpdater_keys s a err now)]
  simp [statusUpdater_attempts]

theorem getItem_update_event_status_ne (tbl : EventsTable) (t e s : String)
    (a : Nat) (err : Option String) (now : String) (t' e' : String)
    (hne : ¬(t' = t ∧ e' = e)) :
    getItem (update_event_status tbl t e s a err now) t' e' =
      getItem tbl t' e' := by
  unfold update_event_status
  rw [getItem_updateItem_ne _ _ _ _ _ _ (statusUpdater_keys s a err now) hne]

theorem errorMessageOf_update_event_status (tbl : EventsTable) (t e s : String)
    (a : Nat) (err : Option String) (now : String)
    (hp : pyTruthy err = false) (t' e' : String) :
    errorMessageOf (update_event_status tbl t e s a err now) t' e' =
      errorMessageOf tbl t' e' := by
  by_cases h : t' = t ∧ e' = e
  · rcases h with ⟨rfl, rfl⟩
    unfold errorMessageOf update_event_status
    rw [getItem_updateItem_self _ _ _ _ (statusUpdater_keys s a err now)]
    show (statusUpdater s a err now _).errorMessage = _
    rw [statusUpdater_errorMessage_falsy _ _ _ _ _ hp]
    exact getD_fresh_bind tbl t' e' EventItem.errorMessage rfl
  · unfold errorMessageOf update_event_status
    rw [getItem_updateItem_ne _ _ _ _ _ _ (statusUpdater_keys s a err now) h]

theorem retryUpdater_status (it : EventItem) :
    (retryUpdater it).status = some "PENDING" := rfl

theorem retryUpdater_attempts (it : EventItem) :
    (retryUpdater it).attempts = it.attempts := rfl

/-! ## Claim C3 -/

/-- Claim C3: `reset_event_for_retry` returns true exactly when the stored
event's current status is FAILED; in that case it sets status to PENDING,
removes `errorMessage`, leaves `attempts` unchanged and touches no other
item; called on an event in any other status — or on a missing event — it
returns false and leaves the table untouched (the source catches the
conditional-check failure instead of throwing). -/
theorem C3_reset_for_retry (tbl : EventsTable) (t e : String) :
    ((reset_event_for_retry tbl t e).1 = (statusOf tbl t e == some "FAILED"))
    ∧ ((statusOf tbl t e == some "FAILED") = false →
        (reset_event_for_retry tbl t e).2 = tbl)
    ∧ (statusOf tbl t e = some "FAILED" →
        statusOf (reset_event_for_retry tbl t e).2 t e = some "PENDING"
        ∧ errorMessageOf (reset_event_for_retry tbl t e).2 t e = none
        ∧ attemptsOf (reset_event_for_retry tbl t e).2 t e = attemptsOf tbl t e
        ∧ ∀ t' e', ¬(t' = t ∧ e' = e) →
            getItem (reset_event_for_retry tbl t e).2 t' e' =
              getItem tbl t' e') := by
  cases hget : getItem tbl t e with
  | none =>
    have hs : statusOf tbl t e = none := by unfold statusOf; rw [hget]; rfl
    refine ⟨?_, ?_, ?_⟩
    · simp [reset_event_for_retry, hget, hs]
    · intro _
      simp [reset_event_for_retry, hget]
    · intro hcontra
      rw [hs] at hcontra
      exact absurd hcontra (by simp)
  | some it =>
    have hs : statusOf tbl t e = it.status := by unfold statusOf; rw [hget]; rfl
    cases hb : (it.status == some "FAILED") with
    | false =>
      refine ⟨?_, ?_, ?_⟩
      · simp [reset_event_for_retry, hget, hb, hs]
      · intro _
        simp [reset_event_for_retry, hget, hb]
      · intro hF
        rw [hs] at hF
        rw [hF] at hb
        exact absurd hb (by simp)
    | true =>
      have h2 : (reset_event_for_retry tbl t e).2 = updateItem tbl t e retryUpdater := by
        simp [reset_event_for_retry, hget, hb]
      refine ⟨?_, ?_, ?_⟩
      · simp [reset_event_for_retry, hget, hb, hs]
      · intro hfalse
        rw [hs] at hfalse
        rw [hfalse] at hb
        exact absurd hb (by simp)
      · intro _
        refine ⟨?_, ?_, ?_, ?_⟩
        · rw [h2]
          unfold statusOf
          rw [getItem_updateItem_self _ _ _ _ retryUpdater_keys]
          rfl
        · rw [h2]
          unfold errorMessageOf
          rw [getItem_updateItem_self _ _ _ _ retryUpdater_keys]
          rfl
        · rw [h2]
          unfold attemptsOf
          rw [getItem_updateItem_self _ _ _ _ retryUpdater_keys]
          show (retryUpdater _).attempts = _
          rw [retryUpdater_attempts]
          exact getD_fresh_bind tbl t e EventItem.attempts rfl
        · intro t' e' hne
          rw [h2]
          exact getItem_updateItem_ne _ _ _ _ _ _ retryUpdater_keys hne

/-- A one-event table with a FAILED event carrying an error message. -/
def c3Table : EventsTable :=
  [{ tenantId := "A", eventId := "ev", status := some "FAILED",
     attempts := some 3, errorMessage := some "boom", targetUrl := some "u",
     payload := some "p", createdAt := some "1" }]

theorem C3_reset_for_retry_witness :
    ((reset_event_for_retry c3Table "A" "ev").1 =
      (statusOf c3Table "A" "ev" == some "FAILED"))
    ∧ statusOf (reset_event_for_retry c3Table "A" "ev").2 "A" "ev" =
        some "PENDING"
    ∧ errorMessageOf (reset_event_for_retry c3Table "A" "ev").2 "A" "ev" = none
    ∧ attemptsOf (reset_event_for_retry c3Table "A" "ev").2 "A" "ev" =
        attemptsOf c3Table "A" "ev" :=
  ⟨(C3_reset_for_retry c3Table "A" "ev").1,
   ((C3_reset_for_retry c3Table "A" "ev").2.2 (by decide)).1,
   ((C3_reset_for_retry c3Table "A" "ev").2.2 (by decide)).2.1,
   ((C3_reset_for_retry c3Table "A" "ev").2.2 (by decide)).2.2.1⟩

/-! ## Claim C8 -/

/-- Claim C8: `list_events` with a status filter — answered from the
cross-tenant `status-index` — only returns items of the requested tenant:
the tenant filter expression is applied to every returned item. -/
theorem C8_list_events_tenant_isolation (tbl : EventsTable)
    (tenantId s : String) (limit startIdx : Nat) :
    (list_events tbl tenantId (some s) limit startIdx).all
      (fun it => it.tenantId == tenantId) = true := by
  rw [List.all_eq_true]
  intro it hit
  simp only [list_events] at hit
  exact List.mem_filter.mp hit |>.2

/-! ## Claim C10 -/

/-- Claim C10: `mark_event_as_purged` reports success whenever the store
write goes through, including when no event with the key exists — the
unconditional `UpdateItem` then creates a record holding only the key and
`status = "PURGED"` — and therefore the purge operation counts a well-formed
dead-letter message referencing a nonexistent event as a successful
reconciliation (1 marked, 0 failed), not a failure. -/
theorem C10_mark_purged_upsert (tbl : EventsTable) (t e : String) :
    ((mark_event_as_purged tbl t e).1 = true)
    ∧ (getItem tbl t e = none →
        (mark_event_as_purged tbl t e).2 =
          tbl ++ [{ tenantId := t, eventId := e, status := some "PURGED" }])
    ∧ (∀ rh, t ≠ "" → e ≠ "" →
        purge_dlq [] [⟨.jsonObj (some t) (some e), rh⟩] =
          ([{ tenantId := t, eventId := e, status := some "PURGED" }], 1, 0,
            [])) := by
  refine ⟨rfl, ?_, ?_⟩
  · intro hnone
    show updateItem tbl t e purgedUpdater = _
    rw [updateItem_of_getItem_none tbl t e purgedUpdater hnone]
    rfl
  · intro rh ht he
    have ht' : (t == "") = false := beq_eq_false_iff_ne.mpr ht
    have he' : (e == "") = false := beq_eq_false_iff_ne.mpr he
    simp [purge_dlq, purge_read_loop, purge_process_message, ht', he',
      mark_event_as_purged, updateItem, purgedUpdater, freshItem]

theorem C10_mark_purged_upsert_witness :
    ((mark_event_as_purged [] "T" "E").1 = true)
    ∧ ((mark_event_as_purged [] "T" "E").2 =
        [] ++ [{ tenantId := "T", eventId := "E", status := some "PURGED" }])
    ∧ purge_dlq [] [⟨.jsonObj (some "T") (some "E"), "rh1"⟩] =
        ([{ tenantId := "T", eventId := "E", status := some "PURGED" }], 1, 0,
          []) :=
  ⟨(C10_mark_purged_upsert [] "T" "E").1,
   (C10_mark_purged_upsert [] "T" "E").2.1 rfl,
   (C10_mark_purged_upsert [] "T" "E").2.2 "rh1" (by decide) (by decide)⟩

/-! ## Claim C5 -/

/-- A three-message dead-letter channel: two well-formed references and one
body that fails JSON parsing. -/
def c5Dlq (t1 e1 raw t2 e2 rh1 rh2 rh3 : String) : List DlqMessage :=
  [⟨.jsonObj (some t1) (some e1), rh1⟩, ⟨.invalidJson raw, rh2⟩,
   ⟨.jsonObj (some t2) (some e2), rh3⟩]

/-- Claim C5: on a dead-letter channel holding 3 messages of which one has a
malformed body, the purge operation marks exactly the 2 well-referenced
events PURGED (the store writes happen in the read-loop, before the final
channel purge is issued), counts the malformed one as the single failure
without aborting the others, and the channel ends up empty. -/
theorem C5_purge_marks_before_purge (tbl : EventsTable)
    (t1 e1 raw t2 e2 rh1 rh2 rh3 : String)
    (h1 : t1 ≠ "") (h2 : e1 ≠ "") (h3 : t2 ≠ "") (h4 : e2 ≠ "") :
    purge_dlq tbl (c5Dlq t1 e1 raw t2 e2 rh1 rh2 rh3) =
      ((mark_event_as_purged (mark_event_as_purged tbl t1 e1).2 t2 e2).2, 2, 1,
        [])
    ∧ statusOf (purge_dlq tbl (c5Dlq t1 e1 raw t2 e2 rh1 rh2 rh3)).1 t1 e1 =
        some "PURGED"
    ∧ statusOf (purge_dlq tbl (c5Dlq t1 e1 raw t2 e2 rh1 rh2 rh3)).1 t2 e2 =
        some "PURGED" := by
  have hb1 : (t1 == "") = false := beq_eq_false_iff_ne.mpr h1
  have hb2 : (e1 == "") = false := beq_eq_false_iff_ne.mpr h2
  have hb3 : (t2 == "") = false := beq_eq_false_iff_ne.mpr h3
  have hb4 : (e2 == "") = false := beq_eq_false_iff_ne.mpr h4
  have main : purge_dlq tbl (c5Dlq t1 e1 raw t2 e2 rh1 rh2 rh3) =
      ((mark_event_as_purged (mark_event_as_purged tbl t1 e1).2 t2 e2).2, 2, 1,
        []) := by
    simp [c5Dlq, purge_dlq, purge_read_loop, purge_process_message,
      mark_event_as_purged, hb1, hb2, hb3, hb4]
  refine ⟨main, ?_, ?_⟩
  · rw [main]
    show statusOf (mark_event_as_purged (mark_event_as_purged tbl t1 e1).2 t2
      e2).2 t1 e1 = some "PURGED"
    rw [statusOf_mark, statusOf_mark]
    split
    · rfl
    · simp
  · rw [main]
    show statusOf (mark_event_as_purged (mark_event_as_purged tbl t1 e1).2 t2
      e2).2 t2 e2 = some "PURGED"
    rw [statusOf_mark]
    simp

theorem C5_purge_marks_before_purge_witness :
    purge_dlq [] (c5Dlq "T1" "E1" "not json" "T2" "E2" "r1" "r2" "r3") =
      ((mark_event_as_purged (mark_event_as_purged [] "T1" "E1").2 "T2"
        "E2").2, 2, 1, [])
    ∧ statusOf (purge_dlq []
        (c5Dlq "T1" "E1" "not json" "T2" "E2" "r1" "r2" "r3")).1 "T1" "E1" =
        some "PURGED"
    ∧ statusOf (purge_dlq []
        (c5Dlq "T1" "E1" "not json" "T2" "E2" "r1" "r2" "r3")).1 "T2" "E2" =
        some "PURGED" :=
  C5_purge_marks_before_purge [] "T1" "E1" "not json" "T2" "E2" "r1" "r2" "r3"
    (by decide) (by decide) (by decide) (by decide)

/-! ## Claim C1 -/

/-- Claim C1 (amended): a dequeued message whose backing event already has
`attempts >= MAX_RETRY_ATTEMPTS` (5) is short-circuited past the Delivery
Client *provided the dead-letter channel is configured and the send
succeeds*: the worker then constructs a fresh `{tenantId, eventId}` message,
sends it to the dead-letter channel, performs no delivery call and no store
write, and treats the original message as successfully handled (no exception
raised, so the message is acknowledged).  When `EVENTS_DLQ_URL` is unset, or
the dead-letter send raises, the handler instead falls through and does
invoke the Delivery Client for the exhausted event — the companion
counterexample. -/
theorem C1_attempt_ceiling_short_circuit (env : WorkerEnv) (tbl : EventsTable)
    (m : QueueMessage) (ev : EventItem) (u p : String)
    (hget : getItem tbl m.tenantId m.eventId = some ev)
    (hu : ev.targetUrl = some u) (hp : ev.payload = some p)
    (hatt : MAX_RETRY_ATTEMPTS ≤ ev.attempts.getD 0)
    (hcfg : env.dlqConfigured = true) (hok : env.dlqSendOk = true) :
    process_record env tbl m = ⟨tbl, [⟨m.tenantId, m.eventId⟩], [], false⟩ := by
  have hd : decide (MAX_RETRY_ATTEMPTS ≤ ev.attempts.getD 0) = true :=
    decide_eq_true hatt
  simp [process_record, hget, hu, hp, hd, hcfg, hok]

/-- An exhausted FAILED event: five attempts already recorded. -/
def c1Table : EventsTable :=
  [{ tenantId := "T", eventId := "E", status := some "FAILED",
     attempts := some 5, errorMessage := some "Request timeout",
     targetUrl := some "u", payload := some "p", createdAt := some "1" }]

/-- A worker environment with the DLQ configured and reachable. -/
def c1Env : WorkerEnv := ⟨true, true, [("T", "sec")], fun _ _ => .timeout, "9"⟩

theorem C1_attempt_ceiling_short_circuit_witness :
    process_record c1Env c1Table ⟨"T", "E"⟩ =
      ⟨c1Table, [⟨"T", "E"⟩], [], false⟩ :=
  C1_attempt_ceiling_short_circuit c1Env c1Table ⟨"T", "E"⟩ _ "u" "p"
    (by rfl) (by rfl) (by rfl) (by decide) rfl rfl

/-- A worker environment with the DLQ configured but the `sqs.send_message`
to it raising, and HTTP answering 500. -/
def c1FailEnv : WorkerEnv :=
  ⟨true, false, [("T", "sec")], fun _ _ => .response 500, "9"⟩

/-- Claim C1, counterexample: the original claim is not universal.  With the
dead-letter channel configured but the send raising, a dequeued message whose
event already has `attempts = 5` IS handed to the Delivery Client (the
fall-through at `worker/handler.py` lines 63-65), nothing reaches the
dead-letter channel, a sixth attempt is recorded, and the handler raises
instead of acknowledging the message. -/
theorem C1_attempt_ceiling_cx :
    c1FailEnv.dlqConfigured = true
    ∧ attemptsRead c1Table "T" "E" = 5
    ∧ (process_record c1FailEnv c1Table ⟨"T", "E"⟩).deliveryCalls =
        [⟨"T", "E"⟩]
    ∧ (process_record c1FailEnv c1Table ⟨"T", "E"⟩).dlqSends = []
    ∧ (process_record c1FailEnv c1Table ⟨"T", "E"⟩).raised = true
    ∧ attemptsRead (process_record c1FailEnv c1Table ⟨"T", "E"⟩).table "T" "E"
        = 6 :=
  ⟨rfl, rfl, rfl, rfl, rfl, rfl⟩

/-! ## Claim C2 -/

/-- Claim C2, counterexample: in a batch of two messages whose first delivery
fails retryably (HTTP 500, one prior attempt budget left), the handler raises
after the first message, so the second message of the same batch is never
processed: no delivery call is made for it and its event stays PENDING —
although processed alone it would have been delivered to the client.  A
failure in one message therefore does block the remaining messages. -/
theorem C2_batch_failure_blocks_rest_cx :
    (run_batch c2Env c2Table c2Batch).raised = true
    ∧ (run_batch c2Env c2Table c2Batch).deliveryCalls = [⟨"T", "e1"⟩]
    ∧ statusOf (run_batch c2Env c2Table c2Batch).table "T" "e2" =
        some "PENDING"
    ∧ (run_batch c2Env c2Table [⟨"T", "e2"⟩]).deliveryCalls = [⟨"T", "e2"⟩] :=
  ⟨rfl, rfl, rfl, rfl⟩

/-- Claim C2 (amended): the worker processes a batch sequentially and keeps
the effects of every message handled before a failure, but it is not
failure-isolated: if processing a prefix raises (a retryable delivery
failure, or a dead-letter send failure after a terminal one), the remaining
messages of the batch are not processed in that invocation; only when the
prefix raises nothing does processing continue into the rest, composing
effects. -/
theorem C2_batch_stops_at_raise (env : WorkerEnv) (tbl : EventsTable)
    (ms1 ms2 : List QueueMessage) :
    ((run_batch env tbl ms1).raised = true →
      run_batch env tbl (ms1 ++ ms2) = run_batch env tbl ms1)
    ∧ ((run_batch env tbl ms1).raised = false →
      run_batch env tbl (ms1 ++ ms2) =
        ⟨(run_batch env (run_batch env tbl ms1).table ms2).table,
         (run_batch env tbl ms1).dlqSends ++
           (run_batch env (run_batch env tbl ms1).table ms2).dlqSends,
         (run_batch env tbl ms1).deliveryCalls ++
           (run_batch env (run_batch env tbl ms1).table ms2).deliveryCalls,
         (run_batch env (run_batch env tbl ms1).table ms2).raised⟩) := by
  induction ms1 generalizing tbl with
  | nil =>
    constructor
    · intro h
      simp [run_batch] at h
    · intro _
      simp [run_batch]
  | cons m rest ih =>
    cases hr : (process_record env tbl m).raised with
    | true =>
      constructor
      · intro _
        show run_batch env tbl (m :: (rest ++ ms2)) =
          run_batch env tbl (m :: rest)
        simp [run_batch, hr]
      · intro hfalse
        simp [run_batch, hr] at hfalse
    | false =>
      constructor
      · intro htrue
        have ht2 : (run_batch env (process_record env tbl m).table rest).raised
            = true := by
          simpa [run_batch, hr] using htrue
        show run_batch env tbl (m :: (rest ++ ms2)) =
          run_batch env tbl (m :: rest)
        simp [run_batch, hr, (ih (process_record env tbl m).table).1 ht2]
      · intro hfalse
        have hf2 : (run_batch env (process_record env tbl m).table rest).raised
            = false := by
          simpa [run_batch, hr] using hfalse
        have h2 := (ih (process_record env tbl m).table).2 hf2
        simp [run_batch, hr, h2, List.append_assoc]

theorem C2_batch_stops_at_raise_witness :
    run_batch c2Env c2Table ([⟨"T", "e1"⟩] ++ [⟨"T", "e2"⟩]) =
      run_batch c2Env c2Table [⟨"T", "e1"⟩] :=
  (C2_batch_stops_at_raise c2Env c2Table [⟨"T", "e1"⟩] [⟨"T", "e2"⟩]).1 rfl

/-! ## Claim C9 -/

/-- The worker's store write never touches `errorMessage` when the update's
error argument is Python-falsy or when every HTTP call comes back as a
response (whose error string is empty); helper for the C9 theorem. -/
theorem process_record_preserves_errorMessage (env : WorkerEnv)
    (tbl : EventsTable) (m : QueueMessage)
    (hhttp : ∀ u p, ∃ c, env.http u p = HttpOutcome.response c)
    (t' e' : String) :
    errorMessageOf (process_record env tbl m).table t' e' =
      errorMessageOf tbl t' e' := by
  unfold process_record
  split
  · rfl
  · split
    · split
      · rfl
      · split
        · rfl
        · rename_i ev x1 x2 tu pl htu hpl hsc x3 sec hlook
          obtain ⟨c, hc⟩ := hhttp tu pl
          rw [hc]
          split
          · exact errorMessageOf_update_event_status tbl m.tenantId m.eventId
              "DELIVERED" _ none env.now rfl t' e'
          · split
            · exact errorMessageOf_update_event_status tbl m.tenantId m.eventId
                "FAILED" _ (some (deliver_webhook (HttpOutcome.response c)).2.2)
                env.now rfl t' e'
            · exact errorMessageOf_update_event_status tbl m.tenantId m.eventId
                "FAILED" _ (some (deliver_webhook (HttpOutcome.response c)).2.2)
                env.now rfl t' e'
    · rfl

/-- Claim C9: `update_event_status` writes only status, attempts and
lastAttemptAt when its error argument is absent — and also when it is the
empty string, which is what `deliver_webhook` returns for any HTTP response,
2xx or not — so neither a successful delivery nor a non-2xx failure ever
writes `errorMessage`; consequently an event the worker just marked DELIVERED
(or FAILED after a non-2xx response) can still carry the `errorMessage`
recorded by an earlier failed attempt, as the concrete run shows. -/
theorem C9_error_message_frame :
    (∀ tbl t e s a (err : Option String) now, pyTruthy err = false →
      ∀ t' e', errorMessageOf (update_event_status tbl t e s a err now) t' e' =
        errorMessageOf tbl t' e')
    ∧ (∀ code, (deliver_webhook (.response code)).2.2 = "")
    ∧ pyTruthy none = false
    ∧ pyTruthy (some "") = false
    ∧ (∀ env tbl m, (∀ u p, ∃ c, env.http u p = HttpOutcome.response c) →
        ∀ t' e', errorMessageOf (process_record env tbl m).table t' e' =
          errorMessageOf tbl t' e')
    ∧ statusOf (process_record c9Env c9Table ⟨"T", "e1"⟩).table "T" "e1" =
        some "DELIVERED"
    ∧ errorMessageOf (process_record c9Env c9Table ⟨"T", "e1"⟩).table "T" "e1" =
        some "Connection error: boom" :=
  ⟨fun tbl t e s a err now hp t' e' =>
      errorMessageOf_update_event_status tbl t e s a err now hp t' e',
   fun _ => rfl, rfl, rfl,
   process_record_preserves_errorMessage, rfl, rfl⟩

theorem C9_error_message_frame_witness :
    errorMessageOf
        (update_event_status c9Table "T" "e1" "DELIVERED" 2 none "222") "T"
        "e1" = errorMessageOf c9Table "T" "e1"
    ∧ errorMessageOf (process_record c9Env c9Table ⟨"T", "e1"⟩).table "T" "e1" =
        errorMessageOf c9Table "T" "e1" :=
  ⟨C9_error_message_frame.1 c9Table "T" "e1" "DELIVERED" 2 none "222" rfl "T"
      "e1",
   (C9_error_message_frame.2.2.2.2.1 c9Env c9Table ⟨"T", "e1"⟩
      (fun _ _ => ⟨200, rfl⟩) "T" "e1").trans (by rfl)⟩

/-! ## Claim C4 -/

theorem attemptsOf_updateItem_pres (tbl : EventsTable) (t0 e0 : String)
    (f : EventItem → EventItem)
    (hf : ∀ it, (f it).tenantId = it.tenantId ∧ (f it).eventId = it.eventId)
    (hatt : ∀ it, (f it).attempts = it.attempts) (t e : String) :
    attemptsOf (updateItem tbl t0 e0 f) t e = attemptsOf tbl t e := by
  by_cases h : t = t0 ∧ e = e0
  · rcases h with ⟨rfl, rfl⟩
    unfold attemptsOf
    rw [getItem_updateItem_self _ _ _ _ hf]
    show (f _).attempts = _
    rw [hatt]
    exact getD_fresh_bind tbl t e EventItem.attempts rfl
  · unfold attemptsOf
    rw [getItem_updateItem_ne _ _ _ _ _ _ hf h]

theorem qm_filter_false (m : QueueMessage) (t e : String)
    (h : ¬(t = m.tenantId ∧ e = m.eventId)) :
    (m.tenantId == t && m.eventId == e) = false := by
  simp only [Bool.and_eq_false_iff, beq_eq_false_iff_ne]
  rcases not_and_or.mp h with h | h
  · exact Or.inl (fun hc => h hc.symm)
  · exact Or.inr (fun hc => h hc.symm)

theorem attemptsRead_update_self (tbl : EventsTable) (t e s : String) (a : Nat)
    (err : Option String) (now : String) :
    attemptsRead (update_event_status tbl t e s a err now) t e = a := by
  unfold attemptsRead
  rw [attemptsOf_update_event_status_self]
  rfl

theorem attemptsRead_update_ne (tbl : EventsTable) (t e s : String) (a : Nat)
    (err : Option String) (now : String) (t' e' : String)
    (hne : ¬(t' = t ∧ e' = e)) :
    attemptsRead (update_event_status tbl t e s a err now) t' e' =
      attemptsRead tbl t' e' := by
  unfold attemptsRead attemptsOf
  rw [getItem_update_event_status_ne _ _ _ _ _ _ _ _ _ hne]

/-- One store operation changes the read `attempts` counter by exactly the
number of delivery attempts it performs on that event: a worker delivery
attempt (success or failure) writes the previous value plus one, and every
other path — ceiling short-circuit, missing event or tenant, retry reset,
purge mark — leaves it unchanged. -/
theorem attemptsRead_applyOp (tbl : EventsTable) (t e : String)
    (op : StoreOp) :
    attemptsRead (applyOp tbl op) t e =
      attemptsRead tbl t e + opDeliveryCount tbl t e op := by
  cases op with
  | retryReset t0 e0 =>
    show attemptsRead (reset_event_for_retry tbl t0 e0).2 t e =
      attemptsRead tbl t e + 0
    rw [Nat.add_zero]
    unfold reset_event_for_retry
    split
    · split
      · unfold attemptsRead
        rw [attemptsOf_updateItem_pres tbl t0 e0 retryUpdater
          retryUpdater_keys (fun _ => rfl) t e]
      · rfl
    · rfl
  | purgeMark t0 e0 =>
    show attemptsRead (mark_event_as_purged tbl t0 e0).2 t e =
      attemptsRead tbl t e + 0
    rw [Nat.add_zero]
    unfold attemptsRead
    rw [attemptsOf_mark]
  | workerMsg env m =>
    show attemptsRead (process_record env tbl m).table t e =
      attemptsRead tbl t e +
        ((process_record env tbl m).deliveryCalls.filter
          (fun c => c.tenantId == t && c.eventId == e)).length
    unfold process_record
    split
    · simp
    · rename_i oev ev hget
      split
      · split
        · simp
        · split
          · simp
          · rename_i x1 x2 tu pl htu hpl hsc x3 sec hlook
            by_cases hkey : t = m.tenantId ∧ e = m.eventId
            · rcases hkey with ⟨rfl, rfl⟩
              have hbase : attemptsRead tbl m.tenantId m.eventId =
                  ev.attempts.getD 0 := by
                unfold attemptsRead attemptsOf
                rw [hget]
                rfl
              have hfil : (List.filter
                  (fun c => c.tenantId == m.tenantId &&
                    c.eventId == m.eventId) [m]).length = 1 := by
                simp [List.filter]
              split
              · simp only [hfil, hbase, attemptsRead_update_self]
              · split
                · simp only [hfil, hbase, attemptsRead_update_self]
                · simp only [hfil, hbase, attemptsRead_update_self]
            · have hfil : (List.filter
                  (fun c => c.tenantId == t && c.eventId == e) [m]).length
                    = 0 := by
                simp [List.filter, qm_filter_false m t e hkey]
              split
              · simp only [hfil, Nat.add_zero,
                  attemptsRead_update_ne _ _ _ _ _ _ _ _ _ hkey]
              · split
                · simp only [hfil, Nat.add_zero,
                    attemptsRead_update_ne _ _ _ _ _ _ _ _ _ hkey]
                · simp only [hfil, Nat.add_zero,
                    attemptsRead_update_ne _ _ _ _ _ _ _ _ _ hkey]
      · simp

/-- Claim C4: per-event `attempts` bookkeeping.  Each worker delivery attempt
(success or failure) writes `attempts = previous attempts + 1`, every other
operation — including the manual retry reset and the purge mark — changes it
by zero, and along any sequence of operations the counter after the trace
equals its value before plus the number of delivery attempts the trace
performed on that event: it never decreases, never skips. -/
theorem C4_attempt_monotone_bookkeeping :
    (∀ tbl t e op, attemptsRead (applyOp tbl op) t e =
      attemptsRead tbl t e + opDeliveryCount tbl t e op)
    ∧ (∀ (ops : List StoreOp) tbl t e,
        attemptsRead (applyOps tbl ops) t e =
          attemptsRead tbl t e + traceDeliveryCount tbl t e ops) := by
  refine ⟨attemptsRead_applyOp, ?_⟩
  intro ops
  induction ops with
  | nil => intro tbl t e; rfl
  | cons op rest ih =>
    intro tbl t e
    show attemptsRead (applyOps (applyOp tbl op) rest) t e = _
    rw [ih (applyOp tbl op) t e, attemptsRead_applyOp tbl t e op]
    show _ = attemptsRead tbl t e +
      (opDeliveryCount tbl t e op + traceDeliveryCount (applyOp tbl op) t e rest)
    rw [Nat.add_assoc]

/-! ## Claim C6 -/

theorem process_dlq_message_recvCalls (st : RequeueState) (msg : DlqMessage) :
    (process_dlq_message st msg).recvCalls = st.recvCalls := by
  cases hb : msg.body with
  | invalidJson raw => simp [process_dlq_message, hb]
  | jsonObj t? e? =>
    simp only [process_dlq_message, hb]
    split <;> rfl

theorem foldl_process_dlq_recvCalls (msgs : List DlqMessage) :
    ∀ st : RequeueState,
      (msgs.foldl process_dlq_message st).recvCalls = st.recvCalls := by
  induction msgs with
  | nil => intro st; rfl
  | cons m rest ih =>
    intro st
    show (rest.foldl process_dlq_message (process_dlq_message st m)).recvCalls = _
    rw [ih, process_dlq_message_recvCalls]

/-- What one message does to the requeue state: a well-formed body is
requeued, re-sent to the main channel and deleted; anything else only bumps
the failure tally — in particular it is never deleted. -/
theorem process_dlq_message_spec (st : RequeueState) (m : DlqMessage) :
    process_dlq_message st m =
      if requeueWellFormed m.body then
        { st with requeued := st.requeued + 1,
                  mainSends := st.mainSends ++ [m.body],
                  deletes := st.deletes ++ [m.receiptHandle] }
      else { st with failed := st.failed + 1 } := by
  cases hb : m.body with
  | invalidJson raw => simp [process_dlq_message, requeueWellFormed, hb]
  | jsonObj t? e? =>
    simp only [process_dlq_message, requeueWellFormed, hb]

theorem requeue_batch_effects (msgs : List DlqMessage) :
    ∀ st : RequeueState,
      ((msgs.foldl process_dlq_message st).requeued =
        st.requeued + (msgs.filter (fun x => requeueWellFormed x.body)).length)
      ∧ ((msgs.foldl process_dlq_message st).failed =
        st.failed + (msgs.filter (fun x => !requeueWellFormed x.body)).length)
      ∧ ((msgs.foldl process_dlq_message st).deletes =
        st.deletes ++ (msgs.filter
          (fun x => requeueWellFormed x.body)).map DlqMessage.receiptHandle)
      ∧ ((msgs.foldl process_dlq_message st).mainSends =
        st.mainSends ++ (msgs.filter
          (fun x => requeueWellFormed x.body)).map DlqMessage.body) := by
  induction msgs with
  | nil => intro st; exact ⟨rfl, rfl, by simp, by simp⟩
  | cons m rest ih =>
    intro st
    have hstep := process_dlq_message_spec st m
    cases hwf : requeueWellFormed m.body with
    | true =>
      rw [hwf, if_pos rfl] at hstep
      have h := ih (process_dlq_message st m)
      refine ⟨?_, ?_, ?_, ?_⟩
      · rw [List.foldl_cons, h.1, hstep]
        simp only [List.filter_cons, hwf, if_true, List.length_cons]
        omega
      · rw [List.foldl_cons, h.2.1, hstep]
        simp [List.filter_cons, hwf]
      · rw [List.foldl_cons, h.2.2.1, hstep]
        simp [List.filter_cons, hwf, List.append_assoc]
      · rw [List.foldl_cons, h.2.2.2, hstep]
        simp [List.filter_cons, hwf, List.append_assoc]
    | false =>
      rw [hwf, if_neg (by simp)] at hstep
      have h := ih (process_dlq_message st m)
      refine ⟨?_, ?_, ?_, ?_⟩
      · rw [List.foldl_cons, h.1, hstep]
        simp [List.filter_cons, hwf]
      · rw [List.foldl_cons, h.2.1, hstep]
        simp only [List.filter_cons, hwf, Bool.not_false, if_true,
          List.length_cons]
        omega
      · rw [List.foldl_cons, h.2.2.1, hstep]
        simp [List.filter_cons, hwf]
      · rw [List.foldl_cons, h.2.2.2, hstep]
        simp [List.filter_cons, hwf]

/-- On the invalid-only channel the requeued tally never moves, so the loop
never reaches an exit condition within any fuel. -/
theorem requeue_loop_invalid_none (fuel : Nat) :
    ∀ st : RequeueState, st.requeued = 0 →
      requeue_loop invalidOnlyChannel 10 100 fuel st = none := by
  induction fuel with
  | zero => intro st _; rfl
  | succ n ih =>
    intro st h
    unfold requeue_loop
    rw [if_neg (by omega)]
    have hmin : min 10 (100 - st.requeued) = 10 := by omega
    rw [hmin]
    have htake : (invalidOnlyChannel st.recvCalls).take 10 =
        [⟨.jsonObj none none, "rh-invalid"⟩] := rfl
    rw [htake]
    rw [if_neg (by simp)]
    apply ih
    simp [process_dlq_message, h]

/-- Claim C6, counterexample: the requeue processor has no hard iteration
cap.  Against a continuously-refilled dead-letter channel that yields one
invalid message per receive (counted as failed, left in place), the loop with
`batchSize = 10`, `maxMessages = 100` never terminates: no amount of fuel
reaches an exit condition. -/
theorem C6_no_iteration_cap_cx :
    ¬ RequeueTerminates invalidOnlyChannel 10 100 := by
  rintro ⟨fuel, hfuel⟩
  rw [requeue_loop_invalid_none fuel requeueInit rfl] at hfuel
  exact absurd hfuel (by simp)

/-- Claim C6 (amended): the requeue processor stops exactly when the requeued
tally reaches `maxMessages` or a receive returns no messages; a channel whose
receives are eventually empty therefore makes it terminate, and per batch an
invalid message is counted as failed and left in place (never deleted, never
re-sent) while each valid message is re-sent to the main channel, deleted and
tallied.  There is, however, no hard iteration cap in the source — the
companion counterexample shows non-termination on a continuously-refilled
channel of invalid messages. -/
theorem C6_requeue_termination_amended :
    (∀ (recv : Nat → List DlqMessage) (b mm fuel : Nat) (st : RequeueState),
      mm ≤ st.requeued → requeue_loop recv b mm (fuel + 1) st = some st)
    ∧ (∀ (recv : Nat → List DlqMessage) (b mm fuel : Nat) (st : RequeueState),
      ¬ mm ≤ st.requeued →
      ((recv st.recvCalls).take (min b (mm - st.requeued))).isEmpty = true →
      requeue_loop recv b mm (fuel + 1) st = some st)
    ∧ (∀ (recv : Nat → List DlqMessage) (b mm K : Nat),
      (∀ j, K ≤ j → recv j = []) → RequeueTerminates recv b mm)
    ∧ (∀ (msgs : List DlqMessage) (st : RequeueState),
      ((msgs.foldl process_dlq_message st).failed =
        st.failed + (msgs.filter (fun x => !requeueWellFormed x.body)).length)
      ∧ ((msgs.foldl process_dlq_message st).deletes =
        st.deletes ++ (msgs.filter
          (fun x => requeueWellFormed x.body)).map DlqMessage.receiptHandle)
      ∧ ((msgs.foldl process_dlq_message st).requeued =
        st.requeued +
          (msgs.filter (fun x => requeueWellFormed x.body)).length)) := by
  refine ⟨?_, ?_, ?_, ?_⟩
  · intro recv b mm fuel st h
    unfold requeue_loop
    rw [if_pos h]
  · intro recv b mm fuel st hmax hempty
    unfold requeue_loop
    rw [if_neg hmax, hempty, if_pos rfl]
  · intro recv b mm K hrecv
    have aux : ∀ n, ∀ st : RequeueState, K ≤ st.recvCalls + n →
        (requeue_loop recv b mm (n + 1) st).isSome = true := by
      intro n
      induction n with
      | zero =>
        intro st hK
        unfold requeue_loop
        by_cases hmax : mm ≤ st.requeued
        · rw [if_pos hmax]; rfl
        · rw [if_neg hmax, hrecv st.recvCalls (by omega)]
          simp [List.take]
      | succ n ih =>
        intro st hK
        unfold requeue_loop
        by_cases hmax : mm ≤ st.requeued
        · rw [if_pos hmax]; rfl
        · rw [if_neg hmax]
          cases hempty : ((recv st.recvCalls).take
              (min b (mm - st.requeued))).isEmpty
          · simp only [hempty, Bool.false_eq_true, if_false]
            apply ih
            rw [foldl_process_dlq_recvCalls]
            show K ≤ st.recvCalls + 1 + n
            omega
          · simp only [hempty, if_true]
            rfl
    exact ⟨K + 1, aux K requeueInit (by simp [requeueInit])⟩
  · intro msgs st
    exact ⟨(requeue_batch_effects msgs st).2.1,
      (requeue_batch_effects msgs st).2.2.1, (requeue_batch_effects msgs st).1⟩

theorem C6_requeue_termination_amended_witness :
    requeue_loop (fun _ => [⟨.jsonObj none none, "x"⟩]) 10 0 3 requeueInit =
      some requeueInit
    ∧ RequeueTerminates (fun _ => []) 10 100
    ∧ (([⟨.jsonObj none none, "x"⟩] : List DlqMessage).foldl
        process_dlq_message requeueInit).failed = requeueInit.failed + 1
    ∧ (([⟨.jsonObj none none, "x"⟩] : List DlqMessage).foldl
        process_dlq_message requeueInit).deletes = requeueInit.deletes ++ [] :=
  ⟨C6_requeue_termination_amended.1 (fun _ => [⟨.jsonObj none none, "x"⟩]) 10 0
      2 requeueInit (by decide),
   C6_requeue_termination_amended.2.2.1 (fun _ => []) 10 100 0
      (fun _ _ => rfl),
   ((C6_requeue_termination_amended.2.2.2 [⟨.jsonObj none none, "x"⟩]
      requeueInit).1).trans (by decide),
   ((C6_requeue_termination_amended.2.2.2 [⟨.jsonObj none none, "x"⟩]
      requeueInit).2.1).trans (by decide)⟩

/-! ## Claim C7 — split, charset and digest-length lemmas -/

theorem splitOnChar_not_mem (sep : Char) (l : List Char) (h : sep ∉ l) :
    splitOnChar sep l = [l] := by
  induction l with
  | nil => rfl
  | cons c rest ih =>
    have hc : (c == sep) = false :=
      beq_eq_false_iff_ne.mpr (fun hcc => h (hcc ▸ List.mem_cons_self c rest))
    have hrest : sep ∉ rest := fun hm => h (List.mem_cons_of_mem c hm)
    simp only [splitOnChar, hc, Bool.false_eq_true, if_false, ih hrest]

theorem splitOnChar_append (sep : Char) (a b : List Char) (h : sep ∉ a) :
    splitOnChar sep (a ++ sep :: b) = a :: splitOnChar sep b := by
  induction a with
  | nil =>
    simp only [List.nil_append, splitOnChar, beq_self_eq_true, if_true]
  | cons c a' ih =>
    have hc : (c == sep) = false :=
      beq_eq_false_iff_ne.mpr (fun hcc => h (hcc ▸ List.mem_cons_self c a'))
    have ha' : sep ∉ a' := fun hm => h (List.mem_cons_of_mem c hm)
    simp only [List.cons_append, splitOnChar, hc, Bool.false_eq_true, if_false,
      List.append_eq, ih ha']

theorem decDigitChar_ne (d : Nat) :
    decDigitChar d ≠ ',' ∧ decDigitChar d ≠ '=' := by
  unfold decDigitChar
  split <;> exact ⟨by decide, by decide⟩

theorem hexDigitChar_ne (d : Nat) :
    hexDigitChar d ≠ ',' ∧ hexDigitChar d ≠ '=' := by
  unfold hexDigitChar
  split <;> exact ⟨by decide, by decide⟩

theorem decimalChars_comma_not_mem (n : Nat) : ',' ∉ decimalChars n := by
  intro hmem
  obtain ⟨d, _, hd⟩ := List.mem_map.mp hmem
  exact (decDigitChar_ne d).1 hd

theorem decimalChars_eq_not_mem (n : Nat) : '=' ∉ decimalChars n := by
  intro hmem
  obtain ⟨d, _, hd⟩ := List.mem_map.mp hmem
  exact (decDigitChar_ne d).2 hd

theorem mem_hexOfBytes (c : Char) (bs : List Nat) (h : c ∈ hexOfBytes bs) :
    ∃ d, c = hexDigitChar d := by
  induction bs with
  | nil => cases h
  | cons b rest ih =>
    have : c ∈ hexByte b ++ hexOfBytes rest := h
    rcases List.mem_append.mp this with h1 | h2
    · simp only [hexByte, List.mem_cons, List.not_mem_nil, or_false] at h1
      rcases h1 with h1 | h1
      · exact ⟨b / 16, h1⟩
      · exact ⟨b % 16, h1⟩
    · exact ih h2

theorem hexOfBytes_comma_not_mem (bs : List Nat) : ',' ∉ hexOfBytes bs := by
  intro hmem
  obtain ⟨d, hd⟩ := mem_hexOfBytes ',' bs hmem
  exact (hexDigitChar_ne d).1 hd.symm

theorem hexOfBytes_eq_not_mem (bs : List Nat) : '=' ∉ hexOfBytes bs := by
  intro hmem
  obtain ⟨d, hd⟩ := mem_hexOfBytes '=' bs hmem
  exact (hexDigitChar_ne d).2 hd.symm

theorem decimalChars_ne_nil (n : Nat) : decimalChars n ≠ [] := by
  unfold decimalChars decRevDigits
  split <;> simp

theorem sha256Round_length (st : List Nat) (kw : Nat × Nat) :
    (sha256Round st kw).length = st.length := by
  unfold sha256Round
  split <;> rfl

theorem foldl_sha256Round_length (l : List (Nat × Nat)) :
    ∀ hs : List Nat, (l.foldl sha256Round hs).length = hs.length := by
  induction l with
  | nil => intro hs; rfl
  | cons kw rest ih =>
    intro hs
    show (rest.foldl sha256Round (sha256Round hs kw)).length = _
    rw [ih, sha256Round_length]

theorem sha256Compress_length (hs block : List Nat) (h : hs.length = 8) :
    (sha256Compress hs block).length = 8 := by
  unfold sha256Compress
  rw [List.length_map, List.length_zip, foldl_sha256Round_length, h]
  omega

theorem foldl_sha256Compress_length (blocks : List (List Nat)) :
    ∀ hs : List Nat, hs.length = 8 →
      (blocks.foldl sha256Compress hs).length = 8 := by
  induction blocks with
  | nil => intro hs h; exact h
  | cons b rest ih =>
    intro hs h
    show (rest.foldl sha256Compress (sha256Compress hs b)).length = 8
    exact ih _ (sha256Compress_length hs b h)

theorem sha256Bytes_length (msg : List Nat) : (sha256Bytes msg).length = 32 := by
  unfold sha256Bytes
  have hfold : ∀ hs : List Nat,
      (hs.foldr (fun w acc =>
        ((w >>> 24) &&& 255) :: ((w >>> 16) &&& 255) :: ((w >>> 8) &&& 255) ::
          (w &&& 255) :: acc) []).length = 4 * hs.length := by
    intro hs
    induction hs with
    | nil => rfl
    | cons w rest ih =>
      simp only [List.foldr_cons, List.length_cons, ih]
      omega
  rw [hfold, foldl_sha256Compress_length _ sha256H0 rfl]

theorem hmacSha256_length (key msg : List Nat) :
    (hmacSha256 key msg).length = 32 := sha256Bytes_length _

theorem hexOfBytes_length (bs : List Nat) :
    (hexOfBytes bs).length = 2 * bs.length := by
  induction bs with
  | nil => rfl
  | cons b rest ih =>
    show (hexByte b ++ hexOfBytes rest).length = _
    simp only [List.length_append, ih, hexByte, List.length_cons,
      List.length_nil]
    omega

theorem hmacHexChars_length (secret message : List Char) :
    (hmacHexChars secret message).length = 64 := by
  unfold hmacHexChars
  rw [hexOfBytes_length, hmacSha256_length]

theorem hmacHexChars_ne_nil (secret message : List Char) :
    hmacHexChars secret message ≠ [] := by
  intro h
  have := congrArg List.length h
  rw [hmacHexChars_length] at this
  exact absurd this (by decide)

theorem hmacHexChars_comma_not_mem (secret message : List Char) :
    ',' ∉ hmacHexChars secret message := hexOfBytes_comma_not_mem _

theorem hmacHexChars_eq_not_mem (secret message : List Char) :
    '=' ∉ hmacHexChars secret message := hexOfBytes_eq_not_mem _

theorem sigOf_comma_not_mem (payload secret : List Char) (ts : Nat) :
    ',' ∉ sigOf payload secret ts := hmacHexChars_comma_not_mem _ _

theorem sigOf_eq_not_mem (payload secret : List Char) (ts : Nat) :
    '=' ∉ sigOf payload secret ts := hmacHexChars_eq_not_mem _ _

theorem sigOf_ne_nil (payload secret : List Char) (ts : Nat) :
    sigOf payload secret ts ≠ [] := hmacHexChars_ne_nil _ _

theorem isEmpty_eq_false_of_ne_nil {l : List Char} (h : l ≠ []) :
    l.isEmpty = false := by
  cases l with
  | nil => exact absurd rfl h
  | cons _ _ => rfl

/-- Parsing a signer-produced header yields exactly the `t` and `v1` pairs:
the timestamp is decimal digits and the signature is hex, so neither contains
the `,` or `=` separators. -/
theorem parseSigHeader_signature (payload secret : List Char) (ts : Nat) :
    parseSigHeader (signatureHeaderChars payload secret ts) =
      some [(['t'], decimalChars ts), (['v', '1'], sigOf payload secret ts)] := by
  have hA : (',' : Char) ∉ 't' :: '=' :: decimalChars ts := by
    intro hm
    rcases List.mem_cons.mp hm with hm | hm
    · exact absurd hm (by decide)
    rcases List.mem_cons.mp hm with hm | hm
    · exact absurd hm (by decide)
    exact decimalChars_comma_not_mem ts hm
  have hB : (',' : Char) ∉ 'v' :: '1' :: '=' :: sigOf payload secret ts := by
    intro hm
    rcases List.mem_cons.mp hm with hm | hm
    · exact absurd hm (by decide)
    rcases List.mem_cons.mp hm with hm | hm
    · exact absurd hm (by decide)
    rcases List.mem_cons.mp hm with hm | hm
    · exact absurd hm (by decide)
    exact sigOf_comma_not_mem _ _ _ hm
  have hp1 : splitPairChar ('t' :: '=' :: decimalChars ts) =
      some (['t'], decimalChars ts) := by
    unfold splitPairChar
    rw [show ('t' :: '=' :: decimalChars ts) =
      ['t'] ++ '=' :: decimalChars ts from rfl]
    rw [splitOnChar_append _ _ _ (by decide),
      splitOnChar_not_mem _ _ (decimalChars_eq_not_mem ts)]
  have hp2 : splitPairChar ('v' :: '1' :: '=' :: sigOf payload secret ts) =
      some (['v', '1'], sigOf payload secret ts) := by
    unfold splitPairChar
    rw [show ('v' :: '1' :: '=' :: sigOf payload secret ts) =
      ['v', '1'] ++ '=' :: sigOf payload secret ts from rfl]
    rw [splitOnChar_append _ _ _ (by decide),
      splitOnChar_not_mem _ _ (sigOf_eq_not_mem _ _ _)]
  unfold parseSigHeader signatureHeaderChars
  rw [show ('t' :: '=' :: (decimalChars ts ++ ',' :: 'v' :: '1' :: '=' ::
      sigOf payload secret ts)) =
    ('t' :: '=' :: decimalChars ts) ++ ',' ::
      ('v' :: '1' :: '=' :: sigOf payload secret ts) from rfl]
  rw [splitOnChar_append _ _ _ hA, splitOnChar_not_mem _ _ hB]
  simp [mapPairs, hp1, hp2]

set_option maxRecDepth 1000000 in
set_option maxHeartbeats 1000000 in
/-- Claim C7: signature round-trip and tamper-rejection.  For every payload,
secret and timestamp, verifying the signer's header with the same payload and
secret succeeds; a header whose timestamp component is missing verifies
false; a header whose `v1` hex is any separator-free string other than the
correct digest — in particular one differing in a single character —
verifies false; and at concrete inputs, changing one character of the secret
or of the payload makes verification false. -/
theorem C7_signature_roundtrip :
    (∀ (payload secret : String) (t : Nat),
      verify_signature payload (generate_stripe_signature payload secret t)
        secret = true)
    ∧ (∀ (payload secret : String) (t : Nat),
      verifyChars payload.data
        ('v' :: '1' :: '=' :: sigOf payload.data secret.data t)
        secret.data = false)
    ∧ (∀ (payload secret : String) (t : Nat) (sig' : List Char),
      ',' ∉ sig' → '=' ∉ sig' → sig' ≠ sigOf payload.data secret.data t →
      verifyChars payload.data
        ('t' :: '=' :: (decimalChars t ++ ',' :: 'v' :: '1' :: '=' :: sig'))
        secret.data = false)
    ∧ verify_signature "hello"
        (generate_stripe_signature "hello" "s3cr3t" 1700000000) "s3cr4t" =
        false
    ∧ verify_signature "hellp"
        (generate_stripe_signature "hello" "s3cr3t" 1700000000) "s3cr3t" =
        false := by
  refine ⟨?_, ?_, ?_, ?_, ?_⟩
  · intro payload secret t
    show verifyChars payload.data
      (signatureHeaderChars payload.data secret.data t) secret.data = true
    unfold verifyChars
    rw [parseSigHeader_signature]
    have hd1 : dictGet [(['t'], decimalChars t),
        (['v', '1'], sigOf payload.data secret.data t)] ['t'] =
        some (decimalChars t) := rfl
    have hd2 : dictGet [(['t'], decimalChars t),
        (['v', '1'], sigOf payload.data secret.data t)] ['v', '1'] =
        some (sigOf payload.data secret.data t) := rfl
    have hE1 : (decimalChars t).isEmpty = false :=
      isEmpty_eq_false_of_ne_nil (decimalChars_ne_nil t)
    have hE2 : (sigOf payload.data secret.data t).isEmpty = false :=
      isEmpty_eq_false_of_ne_nil (hmacHexChars_ne_nil _ _)
    simp only [hd1, hd2, hE1, hE2, Bool.or_self, Bool.false_eq_true, if_false]
    simp [sigOf]
  · intro payload secret t
    unfold verifyChars
    have hparse : parseSigHeader
        ('v' :: '1' :: '=' :: sigOf payload.data secret.data t) =
        some [(['v', '1'], sigOf payload.data secret.data t)] := by
      have hB : (',' : Char) ∉ 'v' :: '1' :: '=' ::
          sigOf payload.data secret.data t := by
        intro hm
        rcases List.mem_cons.mp hm with hm | hm
        · exact absurd hm (by decide)
        rcases List.mem_cons.mp hm with hm | hm
        · exact absurd hm (by decide)
        rcases List.mem_cons.mp hm with hm | hm
        · exact absurd hm (by decide)
        exact sigOf_comma_not_mem _ _ _ hm
      have hp2 : splitPairChar
          ('v' :: '1' :: '=' :: sigOf payload.data secret.data t) =
          some (['v', '1'], sigOf payload.data secret.data t) := by
        unfold splitPairChar
        rw [show ('v' :: '1' :: '=' :: sigOf payload.data secret.data t) =
          ['v', '1'] ++ '=' :: sigOf payload.data secret.data t from rfl]
        rw [splitOnChar_append _ _ _ (by decide),
          splitOnChar_not_mem _ _ (sigOf_eq_not_mem _ _ _)]
      unfold parseSigHeader
      rw [splitOnChar_not_mem _ _ hB]
      simp [mapPairs, hp2]
    rw [hparse]
    rfl
  · intro payload secret t sig' hcomma heq hne
    unfold verifyChars
    have hA : (',' : Char) ∉ 't' :: '=' :: decimalChars t := by
      intro hm
      rcases List.mem_cons.mp hm with hm | hm
      · exact absurd hm (by decide)
      rcases List.mem_cons.mp hm with hm | hm
      · exact absurd hm (by decide)
      exact decimalChars_comma_not_mem t hm
    have hB : (',' : Char) ∉ 'v' :: '1' :: '=' :: sig' := by
      intro hm
      rcases List.mem_cons.mp hm with hm | hm
      · exact absurd hm (by decide)
      rcases List.mem_cons.mp hm with hm | hm
      · exact absurd hm (by decide)
      rcases List.mem_cons.mp hm with hm | hm
      · exact absurd hm (by decide)
      exact hcomma hm
    have hp1 : splitPairChar ('t' :: '=' :: decimalChars t) =
        some (['t'], decimalChars t) := by
      unfold splitPairChar
      rw [show ('t' :: '=' :: decimalChars t) =
        ['t'] ++ '=' :: decimalChars t from rfl]
      rw [splitOnChar_append _ _ _ (by decide),
        splitOnChar_not_mem _ _ (decimalChars_eq_not_mem t)]
    have hp2 : splitPairChar ('v' :: '1' :: '=' :: sig') =
        some (['v', '1'], sig') := by
      unfold splitPairChar
      rw [show ('v' :: '1' :: '=' :: sig') = ['v', '1'] ++ '=' :: sig'
        from rfl]
      rw [splitOnChar_append _ _ _ (by decide),
        splitOnChar_not_mem _ _ heq]
    have hparse : parseSigHeader
        ('t' :: '=' :: (decimalChars t ++ ',' :: 'v' :: '1' :: '=' :: sig')) =
        some [(['t'], decimalChars t), (['v', '1'], sig')] := by
      unfold parseSigHeader
      rw [show ('t' :: '=' :: (decimalChars t ++ ',' :: 'v' :: '1' :: '=' ::
          sig')) =
        ('t' :: '=' :: decimalChars t) ++ ',' :: ('v' :: '1' :: '=' :: sig')
        from rfl]
      rw [splitOnChar_append _ _ _ hA, splitOnChar_not_mem _ _ hB]
      simp [mapPairs, hp1, hp2]
    rw [hparse]
    have hd1 : dictGet [(['t'], decimalChars t), (['v', '1'], sig')] ['t'] =
        some (decimalChars t) := rfl
    have hd2 : dictGet [(['t'], decimalChars t), (['v', '1'], sig')]
        ['v', '1'] = some sig' := rfl
    have hE1 : (decimalChars t).isEmpty = false :=
      isEmpty_eq_false_of_ne_nil (decimalChars_ne_nil t)
    cases hse : sig'.isEmpty with
    | true => simp only [hd1, hd2, hE1, hse, Bool.false_or, if_true]
    | false =>
      have hbeq : (hmacHexChars secret.data
          (decimalChars t ++ '.' :: payload.data) == sig') = false :=
        beq_eq_false_iff_ne.mpr (fun hc => hne hc.symm)
      simp only [hd1, hd2, hE1, hse, Bool.or_self, Bool.false_eq_true,
        if_false, hbeq]
  · decide
  · decide

theorem sigOf_length (payload secret : List Char) (ts : Nat) :
    (sigOf payload secret ts).length = 64 := hmacHexChars_length _ _

theorem C7_signature_roundtrip_witness :
    verify_signature "p" (generate_stripe_signature "p" "s" 5) "s" = true
    ∧ ((',' : Char) ∉ (['x'] : List Char)
        ∧ ('=' : Char) ∉ (['x'] : List Char)
        ∧ (['x'] : List Char) ≠ sigOf "p".data "s".data 5)
    ∧ verifyChars "p".data
        ('t' :: '=' :: (decimalChars 5 ++ ',' :: 'v' :: '1' :: '=' :: ['x']))
        "s".data = false := by
  have hne : (['x'] : List Char) ≠ sigOf "p".data "s".data 5 := by
    intro hc
    have hl := congrArg List.length hc
    rw [sigOf_length] at hl
    exact absurd hl (by decide)
  exact ⟨C7_signature_roundtrip.1 "p" "s" 5,
    ⟨by decide, by decide, hne⟩,
    C7_signature_roundtrip.2.2.1 "p" "s" 5 ['x'] (by decide) (by decide) hne⟩

end WebhookDelivery
